import Mathlib

/-!
Verification of the Pellucid privacy-preservation core
(`pellucid-labeling-api/privacy_service.py`, batch endpoint in `main.py`)
against its natural-language specification.

The Python source is shallowly embedded below. External capabilities are
modelled as parameters, exactly as the spec treats them:
the spaCy NER tagger output (`List NerEnt`), the compiled-regex match
output per entity type (`EntityType → List RegexMatch`), the backing
key-value file of the token vault (the `saved_map` component of
`VaultState`), the environment variable and the fresh random key produced
by `secrets.token_hex`. Floating-point confidences and thresholds are
embedded as rationals; all comparisons performed by the source
(0.9 and 0.95 against 0.8 / 0.7 / 0.6) have the same outcome over the
rationals as over IEEE doubles. Python `str.lower` and the digit class of
`re.sub(r"\D", "", text)` are embedded on their ASCII fragment, which is
the alphabet of the identifiers this service processes. Text indexing and
slicing is by characters (code points), as in Python.
-/

/-- The `EntityType(str, Enum)` of the source, in declaration order. -/
inductive EntityType where
  | PERSON
  | EMAIL
  | PHONE
  | CREDIT_CARD
  | SSN
  | ADDRESS
  | ORG
  | GPE
  | DATE
  | TIME
  | MONEY
  | PERCENT
deriving DecidableEq, Fintype, Repr

/-- The string `.value` of each `EntityType` member. -/
def EntityType.value : EntityType → String
  | .PERSON => "PERSON"
  | .EMAIL => "EMAIL"
  | .PHONE => "PHONE"
  | .CREDIT_CARD => "CREDIT_CARD"
  | .SSN => "SSN"
  | .ADDRESS => "ADDRESS"
  | .ORG => "ORG"
  | .GPE => "GPE"
  | .DATE => "DATE"
  | .TIME => "TIME"
  | .MONEY => "MONEY"
  | .PERCENT => "PERCENT"

/-- Inverse of `EntityType.value`: the `EntityType(label)` constructor call of
the source, `none` for a label outside the enumeration. The source guards the
constructor call by a membership test of the label among the configured
values, which is equivalent to this partial inverse followed by membership. -/
def strToEntityType : String → Option EntityType
  | "PERSON" => some .PERSON
  | "EMAIL" => some .EMAIL
  | "PHONE" => some .PHONE
  | "CREDIT_CARD" => some .CREDIT_CARD
  | "SSN" => some .SSN
  | "ADDRESS" => some .ADDRESS
  | "ORG" => some .ORG
  | "GPE" => some .GPE
  | "DATE" => some .DATE
  | "TIME" => some .TIME
  | "MONEY" => some .MONEY
  | "PERCENT" => some .PERCENT
  | _ => none

/-- `list(EntityType)`: the full enumeration in declaration order. -/
def allEntityTypes : List EntityType :=
  [.PERSON, .EMAIL, .PHONE, .CREDIT_CARD, .SSN, .ADDRESS, .ORG, .GPE,
   .DATE, .TIME, .MONEY, .PERCENT]

/-- The `PrivacyLevel(str, Enum)` of the source. -/
inductive PrivacyLevel where
  | MINIMAL
  | STANDARD
  | STRICT
deriving DecidableEq, Fintype, Repr

/-- One entry of `self.privacy_configs`. -/
structure PrivacyConfig where
  entities : List EntityType
  confidence_threshold : ℚ

/-- `self.privacy_configs` from `PrivacyService.__init__`. -/
def privacy_configs : PrivacyLevel → PrivacyConfig
  | .MINIMAL =>
      { entities := [.EMAIL, .PHONE, .CREDIT_CARD, .SSN],
        confidence_threshold := mkRat 8 10 }
  | .STANDARD =>
      { entities := [.PERSON, .EMAIL, .PHONE, .CREDIT_CARD, .SSN, .ADDRESS, .ORG],
        confidence_threshold := mkRat 7 10 }
  | .STRICT =>
      { entities := allEntityTypes,
        confidence_threshold := mkRat 6 10 }

/-- Iteration order of `self.patterns.items()` (Python dict insertion order). -/
def patternOrder : List EntityType :=
  [.EMAIL, .PHONE, .CREDIT_CARD, .SSN, .MONEY, .PERCENT]

/-- The `SensitiveSpan` dataclass. `stop` embeds the Python field `end`
(a Lean keyword); offsets are half-open character offsets. -/
structure SensitiveSpan where
  text : String
  start : Nat
  stop : Nat
  entity_type : EntityType
  confidence : ℚ
  replacement : String
deriving DecidableEq, Repr

/-- One entity produced by the spaCy NER capability: `ent.text`,
`ent.start_char`, `ent.end_char`, `ent.label_`. -/
structure NerEnt where
  text : String
  start : Nat
  stop : Nat
  label : String
deriving DecidableEq, Repr

/-- One match produced by `pattern.finditer(text)`: `match.group()`,
`match.start()`, `match.end()`. -/
structure RegexMatch where
  text : String
  start : Nat
  stop : Nat
deriving DecidableEq, Repr

/-- ASCII fragment of Python `str.lower` on a single character. -/
def pyLowerChar (c : Char) : Char :=
  if 'A' ≤ c ∧ c ≤ 'Z' then Char.ofNat (c.toNat + 32) else c

/-- ASCII fragment of Python `str.lower`. -/
def pyLower (s : String) : String :=
  String.mk (s.data.map pyLowerChar)

/-- The token-vault lookup key `f"{entity_type.value}:{original_text.lower()}"`. -/
def tokenKey (t : EntityType) (original_text : String) : String :=
  t.value ++ ":" ++ pyLower original_text

/-- The in-memory `self.token_map` dict, as an association list. -/
def TokenMap := List (String × String)

/-- Dict lookup `self.token_map[key]` / `key in self.token_map`. -/
def mapFind : TokenMap → String → Option String
  | [], _ => none
  | (k, v) :: rest, key => if k = key then some v else mapFind rest key

/-- Dict insertion `self.token_map[key] = value` for a key not yet present. -/
def mapInsert (m : TokenMap) (k v : String) : TokenMap :=
  (k, v) :: m

/-- The mutable state of `PrivacyService`: the in-memory `token_map` and the
contents of the backing file `token_map.json` (written by `save_token_map`,
read by `load_token_map`). -/
structure VaultState where
  token_map : TokenMap
  saved_map : TokenMap

/-! SHA-256 (FIPS 180-4) and HMAC (RFC 2104), the primitives behind
`hmac.new(key, message, hashlib.sha256).hexdigest()`. Words are naturals
reduced mod 2^32, bytes are naturals below 256. -/

/-- Truncation to a 32-bit word. -/
def w32 (n : Nat) : Nat := n % 4294967296

/-- Right rotation of a 32-bit word. -/
def rotr (n x : Nat) : Nat := w32 ((x >>> n) ||| (x <<< (32 - n)))

/-- Bitwise complement of a 32-bit word. -/
def compl32 (x : Nat) : Nat := 4294967295 ^^^ x

/-- The SHA-256 choice function. -/
def shaCh (x y z : Nat) : Nat := (x &&& y) ^^^ (compl32 x &&& z)

/-- The SHA-256 majority function. -/
def shaMaj (x y z : Nat) : Nat := (x &&& y) ^^^ (x &&& z) ^^^ (y &&& z)

/-- Big sigma 0. -/
def bsig0 (x : Nat) : Nat := rotr 2 x ^^^ rotr 13 x ^^^ rotr 22 x

/-- Big sigma 1. -/
def bsig1 (x : Nat) : Nat := rotr 6 x ^^^ rotr 11 x ^^^ rotr 25 x

/-- Small sigma 0. -/
def ssig0 (x : Nat) : Nat := rotr 7 x ^^^ rotr 18 x ^^^ (x >>> 3)

/-- Small sigma 1. -/
def ssig1 (x : Nat) : Nat := rotr 17 x ^^^ rotr 19 x ^^^ (x >>> 10)

/-- The 64 SHA-256 round constants of FIPS 180-4 (decimal). -/
def sha256K : List Nat :=
  [1116352408, 1899447441, 3049323471, 3921009573,
   961987163, 1508970993, 2453635748, 2870763221,
   3624381080, 310598401, 607225278, 1426881987,
   1925078388, 2162078206, 2614888103, 3248222580,
   3835390401, 4022224774, 264347078, 604807628,
   770255983, 1249150122, 1555081692, 1996064986,
   2554220882, 2821834349, 2952996808, 3210313671,
   3336571891, 3584528711, 113926993, 338241895,
   666307205, 773529912, 1294757372, 1396182291,
   1695183700, 1986661051, 2177026350, 2456956037,
   2730485921, 2820302411, 3259730800, 3345764771,
   3516065817, 3600352804, 4094571909, 275423344,
   430227734, 506948616, 659060556, 883997877,
   958139571, 1322822218, 1537002063, 1747873779,
   1955562222, 2024104815, 2227730452, 2361852424,
   2428436474, 2756734187, 3204031479, 3329325298]

/-- The eight working words of the compression state. -/
structure Hash8 where
  a : Nat
  b : Nat
  c : Nat
  d : Nat
  e : Nat
  f : Nat
  g : Nat
  h : Nat

/-- The SHA-256 initial hash value. -/
def sha256Init : Hash8 :=
  ⟨1779033703, 3144134277, 1013904242, 2773480762,
   1359893119, 2600822924, 528734635, 1541459225⟩

/-- Big-endian 32-bit words from a byte list. -/
def bytesToWords : List Nat → List Nat
  | b0 :: b1 :: b2 :: b3 :: rest =>
      ((b0 <<< 24) ||| (b1 <<< 16) ||| (b2 <<< 8) ||| b3) :: bytesToWords rest
  | _ => []

/-- Extend a 16-word schedule by the given number of words. -/
def extendSched : Nat → List Nat → List Nat
  | 0, w => w
  | n + 1, w =>
      let i := w.length
      let nw := w32 (ssig1 (w.getD (i - 2) 0) + w.getD (i - 7) 0 +
        ssig0 (w.getD (i - 15) 0) + w.getD (i - 16) 0)
      extendSched n (w ++ [nw])

/-- One SHA-256 round, consuming a (constant, schedule word) pair. -/
def sha256Round (s : Hash8) (kw : Nat × Nat) : Hash8 :=
  let t1 := w32 (s.h + bsig1 s.e + shaCh s.e s.f s.g + kw.1 + kw.2)
  let t2 := w32 (bsig0 s.a + shaMaj s.a s.b s.c)
  ⟨w32 (t1 + t2), s.a, s.b, s.c, w32 (s.d + t1), s.e, s.f, s.g⟩

/-- Compression of one 64-byte block into the running state. -/
def sha256Compress (st : Hash8) (block : List Nat) : Hash8 :=
  let w := extendSched 48 (bytesToWords block)
  let f := (sha256K.zip w).foldl sha256Round st
  ⟨w32 (st.a + f.a), w32 (st.b + f.b), w32 (st.c + f.c), w32 (st.d + f.d),
   w32 (st.e + f.e), w32 (st.f + f.f), w32 (st.g + f.g), w32 (st.h + f.h)⟩

/-- Compress the given number of leading 64-byte blocks. -/
def sha256Blocks : Nat → List Nat → Hash8 → Hash8
  | 0, _, st => st
  | n + 1, bytes, st => sha256Blocks n (bytes.drop 64) (sha256Compress st (bytes.take 64))

/-- Big-endian 8-byte encoding of a 64-bit length. -/
def be64 (n : Nat) : List Nat :=
  [(n >>> 56) % 256, (n >>> 48) % 256, (n >>> 40) % 256, (n >>> 32) % 256,
   (n >>> 24) % 256, (n >>> 16) % 256, (n >>> 8) % 256, n % 256]

/-- SHA-256 message padding. -/
def sha256Pad (ms : List Nat) : List Nat :=
  ms ++ 0x80 :: (List.replicate ((64 - ((ms.length + 9) % 64)) % 64) 0 ++
    be64 (ms.length * 8))

/-- Big-endian bytes of a list of 32-bit words. -/
def wordsToBytes (ws : List Nat) : List Nat :=
  ws.flatMap fun x => [(x >>> 24) % 256, (x >>> 16) % 256, (x >>> 8) % 256, x % 256]

/-- SHA-256 digest (32 bytes) of a byte list. -/
def sha256Bytes (ms : List Nat) : List Nat :=
  let p := sha256Pad ms
  let st := sha256Blocks (p.length / 64) p sha256Init
  wordsToBytes [st.a, st.b, st.c, st.d, st.e, st.f, st.g, st.h]

/-- Lowercase hexadecimal character of a value below 16. -/
def hexChar (n : Nat) : Char :=
  if n < 10 then Char.ofNat (48 + n) else Char.ofNat (87 + n)

/-- Lowercase hexadecimal rendering of a byte list, as `hexdigest()`. -/
def bytesToHex (bs : List Nat) : String :=
  String.mk (bs.flatMap fun b => [hexChar (b / 16), hexChar (b % 16)])

/-- HMAC-SHA256 (RFC 2104) over byte lists. -/
def hmacSha256 (keyBytes msg : List Nat) : List Nat :=
  let k0 := if keyBytes.length > 64 then sha256Bytes keyBytes else keyBytes
  let kp := k0 ++ List.replicate (64 - k0.length) 0
  let ipadK := kp.map fun b => b ^^^ 0x36
  let opadK := kp.map fun b => b ^^^ 0x5c
  sha256Bytes (opadK ++ sha256Bytes (ipadK ++ msg))

/-- The `hexdigest()` of `hmac.new(key, msg, hashlib.sha256)`. -/
def hmacSha256Hex (keyBytes msg : List Nat) : String :=
  bytesToHex (hmacSha256 keyBytes msg)

/-- UTF-8 encoding of one character (`str.encode`). -/
def utf8Bytes (c : Char) : List Nat :=
  let n := c.toNat
  if n < 0x80 then [n]
  else if n < 0x800 then
    [0xC0 ||| (n >>> 6), 0x80 ||| (n &&& 0x3F)]
  else if n < 0x10000 then
    [0xE0 ||| (n >>> 12), 0x80 ||| ((n >>> 6) &&& 0x3F), 0x80 ||| (n &&& 0x3F)]
  else
    [0xF0 ||| (n >>> 18), 0x80 ||| ((n >>> 12) &&& 0x3F),
     0x80 ||| ((n >>> 6) &&& 0x3F), 0x80 ||| (n &&& 0x3F)]

/-- UTF-8 encoding of a string (`str.encode`). -/
def strBytes (s : String) : List Nat :=
  s.data.flatMap utf8Bytes

/-- The `generate_deterministic_token` method: keyed HMAC-SHA256 pseudonym,
truncated to the first 8 hex characters and wrapped in angle brackets. -/
def generate_deterministic_token (secret_key : String) (original_text : String)
    (t : EntityType) : String :=
  let message := t.value ++ ":" ++ pyLower original_text
  let token := (hmacSha256Hex (strBytes secret_key) (strBytes message)).take 8
  "<" ++ t.value ++ ":" ++ token ++ ">"

/-- The `get_or_create_replacement` method: look the normalized key up in
`token_map`; on a miss, derive the token, insert it and persist the whole map
(`save_token_map` rewrites `token_map.json`). -/
def get_or_create_replacement (secret_key : String) (st : VaultState)
    (original_text : String) (t : EntityType) : String × VaultState :=
  match mapFind st.token_map (tokenKey t original_text) with
  | some v => (v, st)
  | none =>
      let tok := generate_deterministic_token secret_key original_text t
      let m := mapInsert st.token_map (tokenKey t original_text) tok
      (tok, { token_map := m, saved_map := m })

/-- Strict comparison on the Python sort key `(x.start, -x.confidence)`
used by `_remove_overlapping_entities`. -/
def spanLtB (x y : SensitiveSpan) : Bool :=
  decide (x.start < y.start ∨ (x.start = y.start ∧ y.confidence < x.confidence))

/-- Strict comparison realizing `sort(key=lambda x: x.start, reverse=True)`. -/
def descStartLtB (x y : SensitiveSpan) : Bool :=
  decide (y.start < x.start)

/-- Stable insertion into a sorted list: the new element is placed before the
first element not strictly below it, so elements with equal keys keep their
original relative order, as Python `list.sort` guarantees. -/
def insertByB (lt : SensitiveSpan → SensitiveSpan → Bool) (x : SensitiveSpan) :
    List SensitiveSpan → List SensitiveSpan
  | [] => [x]
  | y :: ys => if lt y x then y :: insertByB lt x ys else x :: y :: ys

/-- Stable insertion sort, the behaviour of Python `list.sort` with a strict
key comparison. -/
def sortByB (lt : SensitiveSpan → SensitiveSpan → Bool) :
    List SensitiveSpan → List SensitiveSpan
  | [] => []
  | z :: zs => insertByB lt z (sortByB lt zs)

/-- The character-overlap test of `_remove_overlapping_entities`:
`entity.start < added.end and entity.end > added.start`. -/
def overlapsB (e added : SensitiveSpan) : Bool :=
  decide (e.start < added.stop ∧ e.stop > added.start)

/-- The greedy walk of `_remove_overlapping_entities`: keep a span iff it
overlaps no already-kept span (`filtered` is the accumulator). -/
def keepNonOverlapping : List SensitiveSpan → List SensitiveSpan → List SensitiveSpan
  | filtered, [] => filtered
  | filtered, e :: rest =>
      if filtered.any fun ad => overlapsB e ad then keepNonOverlapping filtered rest
      else keepNonOverlapping (filtered ++ [e]) rest

/-- The `_remove_overlapping_entities` method: sort by
`(start, -confidence)`, then greedily drop overlapping spans. -/
def remove_overlapping_entities (entities : List SensitiveSpan) : List SensitiveSpan :=
  keepNonOverlapping [] (sortByB spanLtB entities)

/-- The spaCy pass of `detect_sensitive_entities`: for each recognized entity
whose label is a configured entity type and whose default confidence 0.9
clears the threshold, obtain a replacement from the vault and emit a span. -/
def nerPass (secret_key : String) (cfg : PrivacyConfig) :
    List NerEnt → VaultState → List SensitiveSpan × VaultState
  | [], st => ([], st)
  | ent :: rest, st =>
      match strToEntityType ent.label with
      | some t =>
          if t ∈ cfg.entities then
            if mkRat 9 10 ≥ cfg.confidence_threshold then
              ({ text := ent.text, start := ent.start, stop := ent.stop,
                 entity_type := t, confidence := mkRat 9 10,
                 replacement := (get_or_create_replacement secret_key st ent.text t).1 } ::
                 (nerPass secret_key cfg rest
                   (get_or_create_replacement secret_key st ent.text t).2).1,
               (nerPass secret_key cfg rest
                 (get_or_create_replacement secret_key st ent.text t).2).2)
            else nerPass secret_key cfg rest st
          else nerPass secret_key cfg rest st
      | none => nerPass secret_key cfg rest st

/-- The regex pass for a single pattern family: one span of confidence 0.95
per match, each with a vault replacement. -/
def regexPassType (secret_key : String) (t : EntityType) :
    List RegexMatch → VaultState → List SensitiveSpan × VaultState
  | [], st => ([], st)
  | m :: rest, st =>
      ({ text := m.text, start := m.start, stop := m.stop,
         entity_type := t, confidence := mkRat 19 20,
         replacement := (get_or_create_replacement secret_key st m.text t).1 } ::
         (regexPassType secret_key t rest
           (get_or_create_replacement secret_key st m.text t).2).1,
       (regexPassType secret_key t rest
         (get_or_create_replacement secret_key st m.text t).2).2)

/-- The regex pass of `detect_sensitive_entities`, iterating the pattern
families in dict order and skipping those outside the active configuration.
`rgx` is the output of the compiled-regex capability on the input text. -/
def regexPass (secret_key : String) (cfg : PrivacyConfig)
    (rgx : EntityType → List RegexMatch) :
    List EntityType → VaultState → List SensitiveSpan × VaultState
  | [], st => ([], st)
  | t :: rest, st =>
      if t ∈ cfg.entities then
        ((regexPassType secret_key t (rgx t) st).1 ++
           (regexPass secret_key cfg rgx rest (regexPassType secret_key t (rgx t) st).2).1,
         (regexPass secret_key cfg rgx rest (regexPassType secret_key t (rgx t) st).2).2)
      else regexPass secret_key cfg rgx rest st

/-- The candidate list of `detect_sensitive_entities` before overlap
resolution: spaCy spans followed by regex spans. -/
def collectCandidates (secret_key : String) (ner : List NerEnt)
    (rgx : EntityType → List RegexMatch) (lvl : PrivacyLevel) (st : VaultState) :
    List SensitiveSpan × VaultState :=
  ((nerPass secret_key (privacy_configs lvl) ner st).1 ++
     (regexPass secret_key (privacy_configs lvl) rgx patternOrder
       (nerPass secret_key (privacy_configs lvl) ner st).2).1,
   (regexPass secret_key (privacy_configs lvl) rgx patternOrder
     (nerPass secret_key (privacy_configs lvl) ner st).2).2)

/-- The `detect_sensitive_entities` method, with the spaCy output `ner` and
the regex output `rgx` supplied by the external capabilities. -/
def detect_sensitive_entities (secret_key : String) (ner : List NerEnt)
    (rgx : EntityType → List RegexMatch) (lvl : PrivacyLevel) (st : VaultState) :
    List SensitiveSpan × VaultState :=
  (remove_overlapping_entities (collectCandidates secret_key ner rgx lvl st).1,
   (collectCandidates secret_key ner rgx lvl st).2)

/-- The digit extraction `re.sub(r"\D", "", text)` (ASCII digit fragment). -/
def pyDigits (s : String) : List Char :=
  s.data.filter Char.isDigit

/-- The per-digit substitution `str((int(d) + k) % 10)`. -/
def shiftDigitChar (k : Nat) (c : Char) : Char :=
  Char.ofNat (48 + ((c.toNat - 48) + k) % 10)

/-- Chunks of four characters, `[encrypted[i:i+4] for i in range(0, len, 4)]`. -/
def chunks4 : Nat → List Char → List (List Char)
  | 0, _ => []
  | _, [] => []
  | n + 1, l => l.take 4 :: chunks4 n (l.drop 4)

/-- The `apply_format_preserving_encryption` method: canonical per-type
digit layouts with per-type additive shifts, deterministic token otherwise. -/
def apply_format_preserving_encryption (secret_key : String) (text : String)
    (t : EntityType) : String :=
  match t with
  | .PHONE =>
      let ds := pyDigits text
      if ds.length = 10 then
        let e := ds.map (shiftDigitChar 3)
        "(" ++ String.mk (e.take 3) ++ ") " ++ String.mk ((e.drop 3).take 3) ++
          "-" ++ String.mk (e.drop 6)
      else generate_deterministic_token secret_key text t
  | .CREDIT_CARD =>
      let ds := pyDigits text
      if ds.length ≥ 13 then
        let e := ds.map (shiftDigitChar 2)
        String.intercalate "-" ((chunks4 e.length e).map String.mk)
      else generate_deterministic_token secret_key text t
  | .SSN =>
      let ds := pyDigits text
      if ds.length = 9 then
        let e := ds.map (shiftDigitChar 1)
        String.mk (e.take 3) ++ "-" ++ String.mk ((e.drop 3).take 2) ++
          "-" ++ String.mk (e.drop 5)
      else generate_deterministic_token secret_key text t
  | _ => generate_deterministic_token secret_key text t

/-- One element of the `entities_found` audit list built by `sanitize_text`. -/
structure FoundEntity where
  original : String
  replacement : String
  entity_type : EntityType
  confidence : ℚ
  start : Nat
  stop : Nat
deriving DecidableEq, Repr

/-- The structured types eligible for format-preserving encryption. -/
def structuredTypes : List EntityType := [.PHONE, .CREDIT_CARD, .SSN]

/-- The Python splice `sanitized_text[:start] + replacement + sanitized_text[end:]`
on character lists. -/
def spliceChars (t : List Char) (start stop : Nat) (r : List Char) : List Char :=
  t.take start ++ r ++ t.drop stop

/-- The replacement chosen by the loop body of `sanitize_text` for one span:
the format-preserving cipher for the structured numeric types when
`preserve_format` is set, the vault token recorded during detection
otherwise. -/
def spanReplacement (secret_key : String) (preserve_format : Bool)
    (e : SensitiveSpan) : String :=
  if preserve_format ∧ e.entity_type ∈ structuredTypes then
    apply_format_preserving_encryption secret_key e.text e.entity_type
  else e.replacement

/-- The replacement loop of `sanitize_text`, walking the spans sorted by
descending start offset and splicing each replacement into the text while
recording the audit entry. -/
def applyReplacements (secret_key : String) (preserve_format : Bool) :
    List SensitiveSpan → List Char → List Char × List FoundEntity
  | [], t => (t, [])
  | e :: rest, t =>
      ((applyReplacements secret_key preserve_format rest
          (spliceChars t e.start e.stop (spanReplacement secret_key preserve_format e).data)).1,
       { original := e.text, replacement := spanReplacement secret_key preserve_format e,
         entity_type := e.entity_type, confidence := e.confidence,
         start := e.start, stop := e.stop } ::
         (applyReplacements secret_key preserve_format rest
           (spliceChars t e.start e.stop (spanReplacement secret_key preserve_format e).data)).2)

/-- The value returned by `sanitize_text`, without the wall-clock
`processing_time_ms` component. -/
structure SanitizeResult where
  sanitized_text : String
  privacy_score : ℚ
  entities_found : List FoundEntity
deriving Repr

/-- The `sanitize_text` method: detect, sort by descending start offset,
splice replacements right to left, and compute the saturating privacy score
`min(1.0, len(entities) * 0.1 + 0.5)`. -/
def sanitize_text (secret_key : String) (ner : List NerEnt)
    (rgx : EntityType → List RegexMatch) (text : String) (lvl : PrivacyLevel)
    (preserve_format : Bool) (st : VaultState) : SanitizeResult × VaultState :=
  ({ sanitized_text := String.mk
       (applyReplacements secret_key preserve_format
         (sortByB descStartLtB (detect_sensitive_entities secret_key ner rgx lvl st).1)
         text.data).1,
     privacy_score :=
       min 1 (((detect_sensitive_entities secret_key ner rgx lvl st).1.length : ℚ) *
         mkRat 1 10 + mkRat 1 2),
     entities_found :=
       (applyReplacements secret_key preserve_format
         (sortByB descStartLtB (detect_sensitive_entities secret_key ner rgx lvl st).1)
         text.data).2 },
   (detect_sensitive_entities secret_key ner rgx lvl st).2)

/-- The observable state of a constructed `PrivacyService`. -/
structure PrivacyServiceState where
  secret_key : String
  vault : VaultState

/-- Python truthiness of the `secret_key or ...` fallback: `None` and the
empty string are falsy. -/
def pyOrStr (s : Option String) (d : String) : String :=
  match s with
  | some v => if v = "" then d else v
  | none => d

/-- The `PrivacyService.__init__` constructor.
`env_key` is `os.environ.get("PRIVACY_SECRET_KEY")`, `fresh_hex` is the
`secrets.token_hex(32)` value passed as the `os.getenv` default, and
`loaded` is the content of `token_map.json` read by `load_token_map`
(the empty map when the file is missing). The constructor has no failure
path: it always returns a service state. -/
def privacyServiceInit (secret_key_arg : Option String) (env_key : Option String)
    (fresh_hex : String) (loaded : TokenMap) : PrivacyServiceState :=
  { secret_key := pyOrStr secret_key_arg (env_key.getD fresh_hex),
    vault := { token_map := loaded, saved_map := loaded } }

/-- One element of the result list of the `/batch-anonymize` endpoint of
`main.py` (the numeric `processing_time_ms` component is omitted). -/
structure BatchItem where
  sanitized_text : String
  privacy_score : ℚ
  entities_found : List FoundEntity
  privacy_level : PrivacyLevel
  error : Option String
deriving Repr

/-- The `/batch-anonymize` loop of `main.py`, with `sanitize_text` modelled
as an injected fallible operation `san` (the `except` block catches any
exception the call may raise, for example from the NER model or from the
vault persistence; the state returned on failure is whatever the partial
execution left behind). A successful item carries the sanitize output and no
error; a failed item falls back to the original text, score 0.0, an empty
entity list and the error message. -/
def batch_anonymize_text
    (san : String → VaultState → Except String SanitizeResult × VaultState)
    (lvl : PrivacyLevel) : List String → VaultState → List BatchItem × VaultState
  | [], st => ([], st)
  | t :: ts, st =>
      ((match (san t st).1 with
        | .ok r =>
            { sanitized_text := r.sanitized_text, privacy_score := r.privacy_score,
              entities_found := r.entities_found, privacy_level := lvl, error := none }
        | .error e =>
            { sanitized_text := t, privacy_score := 0, entities_found := [],
              privacy_level := lvl, error := some e }) ::
         (batch_anonymize_text san lvl ts (san t st).2).1,
       (batch_anonymize_text san lvl ts (san t st).2).2)

/-- The vault state reached after sanitizing a prefix of a batch. -/
def batchPrefixState
    (san : String → VaultState → Except String SanitizeResult × VaultState)
    (ts : List String) (st : VaultState) : VaultState :=
  ts.foldl (fun s t => (san t s).2) st

/-- The character-overlap relation of the spec:
`a.start < b.end and b.start < a.end`. -/
def Overlap (a b : SensitiveSpan) : Prop :=
  a.start < b.stop ∧ b.start < a.stop

/-- The sort order of the Span Resolver: ascending start offset, ties broken
by descending confidence. -/
def ResolverOrder (x y : SensitiveSpan) : Prop :=
  x.start < y.start ∨ (x.start = y.start ∧ y.confidence ≤ x.confidence)

/-- Binding-preservation between token maps: every binding of the first map
is present, with the same value, in the second. This is the invariant the
vault maintains over time, since `get_or_create_replacement` only ever
inserts missing keys and never rewrites an existing binding. -/
def MapExtends (m m2 : TokenMap) : Prop :=
  ∀ k v, mapFind m k = some v → mapFind m2 k = some v

/-- One mutation of the vault state: some call of
`get_or_create_replacement` (with any key, value and type). Every write the
service performs to the vault goes through this operation. -/
def VaultStep (st st2 : VaultState) : Prop :=
  ∃ sk v t, st2 = (get_or_create_replacement sk st v t).2

/-- Vault states reachable by any number of service operations. -/
def VaultReachable : VaultState → VaultState → Prop :=
  Relation.ReflTransGen VaultStep

/-- The backing file is in sync with the in-memory map. This holds at
construction (`load_token_map` reads the file into memory) and is preserved
by every vault operation. -/
def VaultSynced (st : VaultState) : Prop :=
  st.saved_map = st.token_map

/-- Well-formedness of the vault content for a given secret key: every stored
binding is the derived token of its key. Holds for the empty map and is
preserved by the service; a vault populated through the service satisfies it. -/
def VaultInv (sk : String) (st : VaultState) : Prop :=
  ∀ t v tok, mapFind st.token_map (tokenKey t v) = some tok →
    tok = generate_deterministic_token sk v t

/-- Bool test that a character list starts with `ddd-ddd-dddd` (the regex
`\d{3}-\d{3}-\d{4}` anchored at the head). -/
def dashPhoneAt (l : List Char) : Bool :=
  decide (12 ≤ l.length) && (l.take 3).all Char.isDigit &&
  (l.getD 3 ' ' == '-') && ((l.drop 4).take 3).all Char.isDigit &&
  (l.getD 7 ' ' == '-') && ((l.drop 8).take 4).all Char.isDigit

/-- Bool test that a whole string matches `\d{3}-\d{3}-\d{4}`. -/
def matchesDashPhone (s : String) : Bool :=
  dashPhoneAt s.data && decide (s.data.length = 12)

/-- Bool test that some substring of the string matches `\d{3}-\d{3}-\d{4}`
(Python `re.search`). -/
def containsDashPhone (s : String) : Bool :=
  (List.range (s.data.length + 1)).any fun i => dashPhoneAt (s.data.drop i)

/-- The canonical layout `(ddd) ddd-dddd` that the cipher actually emits for
phone numbers. -/
def ParenPhoneShape (s : String) : Prop :=
  ∃ g1 g2 g3 : List Char,
    s.data = '(' :: (g1 ++ [')', ' '] ++ g2 ++ '-' :: g3) ∧
    g1.length = 3 ∧ g2.length = 3 ∧ g3.length = 4 ∧
    (g1 ++ g2 ++ g3).all Char.isDigit = true

/-- Sum of the replaced span lengths `end - start` over an audit list. -/
def sumRemovedLens (fs : List FoundEntity) : Nat :=
  (fs.map fun f => f.stop - f.start).sum

/-- Sum of the replacement string lengths over an audit list. -/
def sumReplLens (fs : List FoundEntity) : Nat :=
  (fs.map fun f => f.replacement.data.length).sum

/-- Placeholder batch item used as the default of positional access. -/
def defaultBatchItem : BatchItem :=
  { sanitized_text := "", privacy_score := 0, entities_found := [],
    privacy_level := .STANDARD, error := none }

/-- Concrete NER capability output used to separate the privacy levels: one
person span covering the region of both regex matches. -/
def cexNer : List NerEnt :=
  [{ text := "John", start := 5, stop := 45, label := "PERSON" }]

/-- Concrete regex capability output used to separate the privacy levels:
one email match and one phone match, mutually disjoint, both inside the
person span. -/
def cexRgx : EntityType → List RegexMatch
  | .EMAIL => [{ text := "e", start := 10, stop := 20 }]
  | .PHONE => [{ text := "p", start := 30, stop := 40 }]
  | _ => []

/-- Concrete pre-populated vault covering the three candidate keys of
`cexNer` and `cexRgx`. -/
def cexVault : VaultState :=
  { token_map := [("PERSON:john", "t1"), ("EMAIL:e", "t2"), ("PHONE:p", "t3")],
    saved_map := [("PERSON:john", "t1"), ("EMAIL:e", "t2"), ("PHONE:p", "t3")] }

/-- Overlap is stated by the source as a decidable arithmetic test. -/
instance (a b : SensitiveSpan) : Decidable (Overlap a b) :=
  inferInstanceAs (Decidable (a.start < b.stop ∧ b.start < a.stop))

/-- Concrete regex-derived span used to instantiate the tie-break property. -/
def cexSpan95 : SensitiveSpan :=
  { text := "555-123-4567", start := 4, stop := 16, entity_type := .PHONE,
    confidence := 19/20, replacement := "r1" }

/-- Concrete model-derived span used to instantiate the tie-break property. -/
def cexSpan90 : SensitiveSpan :=
  { text := "555-123", start := 4, stop := 11, entity_type := .PERSON,
    confidence := 9/10, replacement := "r2" }

/-- Concrete successful sanitize outcome used to instantiate batch isolation. -/
def cexOkResult : SanitizeResult :=
  { sanitized_text := "ok", privacy_score := mkRat 1 2, entities_found := [] }

/-- Concrete fallible sanitizer used to instantiate batch isolation: fails on
the text "bad", succeeds on everything else, never touches the vault. -/
def cexSan : String → VaultState → Except String SanitizeResult × VaultState :=
  fun t s => if t = "bad" then (Except.error "boom", s) else (Except.ok cexOkResult, s)

/-- Concrete NER capability output used to instantiate the length property. -/
def cex6Ner : List NerEnt :=
  [{ text := "hi", start := 8, stop := 10, label := "PERSON" }]

/-- Concrete regex capability output used to instantiate the length property. -/
def cex6Rgx : EntityType → List RegexMatch
  | .EMAIL => [{ text := "ab@c.de", start := 0, stop := 7 }]
  | _ => []

/-- The canonical layout `ddd-dd-dddd` that the cipher emits for SSNs. -/
def SsnDashShape (s : String) : Prop :=
  ∃ g1 g2 g3 : List Char,
    s.data = g1 ++ ('-' :: (g2 ++ ('-' :: g3))) ∧
    g1.length = 3 ∧ g2.length = 2 ∧ g3.length = 4 ∧
    (g1 ++ g2 ++ g3).all Char.isDigit = true

/-- The canonical credit-card layout: the given digit sequence broken into
groups of four joined by dashes, with only the last group possibly shorter. -/
def CcDashShape (s : String) (ds : List Char) : Prop :=
  ∃ gs : List (List Char),
    s = String.intercalate "-" (gs.map String.mk) ∧
    gs.flatten = ds ∧
    (∀ g ∈ gs, 1 ≤ g.length ∧ g.length ≤ 4 ∧ g.all Char.isDigit = true) ∧
    ∀ g ∈ gs.dropLast, g.length = 4

set_option maxRecDepth 100000 in
/-- Known-answer sanity check of the SHA-256 embedding (FIPS 180-4 vector). -/
theorem sha256_kat_abc :
    bytesToHex (sha256Bytes (strBytes "abc")) =
      "ba7816bf8f01cfea414140de5dae2223b00361a396177a9cb410ff61f20015ad" := by
  decide

theorem not_overlap_of_overlapsB_ne_true {e ad : SensitiveSpan}
    (h : overlapsB e ad ≠ true) : ¬ Overlap e ad := by
  intro hov
  apply h
  rw [overlapsB, decide_eq_true_iff]
  exact ⟨hov.1, hov.2⟩

theorem keepNonOverlapping_pairwise (l acc : List SensitiveSpan)
    (h : acc.Pairwise fun a b => ¬ Overlap a b) :
    (keepNonOverlapping acc l).Pairwise fun a b => ¬ Overlap a b := by
  induction l generalizing acc with
  | nil => simpa [keepNonOverlapping] using h
  | cons e rest ih =>
    unfold keepNonOverlapping
    by_cases hc : (acc.any fun ad => overlapsB e ad) = true
    · simp only [hc, if_true]
      exact ih _ h
    · simp only [hc, if_false]
      refine ih _ ?_
      rw [List.pairwise_append]
      refine ⟨h, List.pairwise_singleton _ _, ?_⟩
      intro a ha b hb
      rw [List.mem_singleton] at hb
      subst hb
      rw [List.any_eq_true] at hc
      push_neg at hc
      have h1 := not_overlap_of_overlapsB_ne_true (hc a ha)
      intro hov
      exact h1 ⟨hov.2, hov.1⟩

theorem mem_insertByB {lt : SensitiveSpan → SensitiveSpan → Bool}
    {x y : SensitiveSpan} {l : List SensitiveSpan} :
    y ∈ insertByB lt x l ↔ y = x ∨ y ∈ l := by
  induction l with
  | nil => simp [insertByB]
  | cons z zs ih =>
    unfold insertByB
    by_cases h : lt z x = true
    · rw [if_pos h]
      simp only [List.mem_cons, ih]
      tauto
    · rw [if_neg h]
      simp only [List.mem_cons]

theorem resolverOrder_trans {x y z : SensitiveSpan}
    (h1 : ResolverOrder x y) (h2 : ResolverOrder y z) : ResolverOrder x z := by
  rcases h1 with h1 | ⟨h1e, h1c⟩ <;> rcases h2 with h2 | ⟨h2e, h2c⟩
  · exact Or.inl (h1.trans h2)
  · exact Or.inl (h2e ▸ h1)
  · exact Or.inl (h1e ▸ h2)
  · exact Or.inr ⟨h1e.trans h2e, h2c.trans h1c⟩

theorem spanLtB_true {y x : SensitiveSpan} (h : spanLtB y x = true) :
    ResolverOrder y x := by
  rw [spanLtB, decide_eq_true_iff] at h
  rcases h with h | ⟨he, hc⟩
  · exact Or.inl h
  · exact Or.inr ⟨he, le_of_lt hc⟩

theorem spanLtB_false {y x : SensitiveSpan} (h : ¬ spanLtB y x = true) :
    ResolverOrder x y := by
  rw [spanLtB, decide_eq_true_iff] at h
  push_neg at h
  rcases lt_or_eq_of_le h.1 with hlt | heq
  · exact Or.inl hlt
  · exact Or.inr ⟨heq, h.2 heq.symm⟩

theorem insertByB_pairwise_resolver (x : SensitiveSpan) (l : List SensitiveSpan)
    (hl : l.Pairwise ResolverOrder) :
    (insertByB spanLtB x l).Pairwise ResolverOrder := by
  induction l with
  | nil => simp [insertByB]
  | cons y ys ih =>
    rcases hl with _ | ⟨hy, hys⟩
    unfold insertByB
    by_cases h : spanLtB y x = true
    · simp only [h, if_true]
      refine List.Pairwise.cons ?_ (ih hys)
      intro z hz
      rcases mem_insertByB.mp hz with rfl | hz'
      · exact spanLtB_true h
      · exact hy z hz'
    · simp only [h, if_false]
      refine List.Pairwise.cons ?_ (List.Pairwise.cons hy hys)
      intro z hz
      rcases List.mem_cons.mp hz with rfl | hz'
      · exact spanLtB_false h
      · exact resolverOrder_trans (spanLtB_false h) (hy z hz')

theorem sortByB_pairwise_resolver (l : List SensitiveSpan) :
    (sortByB spanLtB l).Pairwise ResolverOrder := by
  induction l with
  | nil => simp [sortByB]
  | cons z zs ih => exact insertByB_pairwise_resolver z _ ih

/-- C2: every output of the Span Resolver is pairwise character-disjoint: no
two retained spans a, b satisfy a.start < b.end and b.start < a.end. -/
theorem c2_resolver_output_disjoint (entities : List SensitiveSpan) :
    (remove_overlapping_entities entities).Pairwise fun a b => ¬ Overlap a b :=
  keepNonOverlapping_pairwise _ [] List.Pairwise.nil

/-- C5: the Span Resolver sorts candidates by ascending start offset with
ties broken by descending confidence, and for two overlapping spans at the
same start offset, one of confidence 0.95 and one of confidence 0.9, the
0.95 span is retained and the 0.9 span is discarded, whichever order the
detectors produced them in. -/
theorem c5_sort_and_tiebreak :
    (∀ l : List SensitiveSpan, (sortByB spanLtB l).Pairwise ResolverOrder) ∧
    ∀ a b : SensitiveSpan, a.confidence = 19/20 → b.confidence = 9/10 →
      a.start = b.start → Overlap a b →
      remove_overlapping_entities [a, b] = [a] ∧
      remove_overlapping_entities [b, a] = [a] := by
  refine ⟨sortByB_pairwise_resolver, ?_⟩
  intro a b hca hcb hse hov
  have hlt_ba : spanLtB b a = false := by
    rw [spanLtB, decide_eq_false_iff_not]
    rintro (h | ⟨-, hc⟩)
    · rw [hse] at h
      exact lt_irrefl _ h
    · rw [hca, hcb] at hc
      norm_num at hc
  have hlt_ab : spanLtB a b = true := by
    rw [spanLtB, decide_eq_true_iff]
    refine Or.inr ⟨hse, ?_⟩
    rw [hca, hcb]
    norm_num
  have hovB : overlapsB b a = true := by
    rw [overlapsB, decide_eq_true_iff]
    exact ⟨hov.2, hov.1⟩
  constructor
  · show keepNonOverlapping [] (sortByB spanLtB [a, b]) = [a]
    have hsort : sortByB spanLtB [a, b] = [a, b] := by
      simp [sortByB, insertByB, hlt_ba]
    rw [hsort]
    simp [keepNonOverlapping, hovB]
  · show keepNonOverlapping [] (sortByB spanLtB [b, a]) = [a]
    have hsort : sortByB spanLtB [b, a] = [a, b] := by
      simp [sortByB, insertByB, hlt_ab]
    rw [hsort]
    simp [keepNonOverlapping, hovB]

/-- Witness for C5 at concrete spans. -/
theorem c5_witness :
    remove_overlapping_entities [cexSpan95, cexSpan90] = [cexSpan95] ∧
    remove_overlapping_entities [cexSpan90, cexSpan95] = [cexSpan95] :=
  (c5_sort_and_tiebreak.2 cexSpan95 cexSpan90 rfl rfl rfl (by decide))

theorem isDigit_shiftDigitChar (k : Nat) (c : Char) :
    (shiftDigitChar k c).isDigit = true := by
  unfold shiftDigitChar
  have h : (c.toNat - 48 + k) % 10 < 10 := Nat.mod_lt _ (by norm_num)
  revert h
  generalize (c.toNat - 48 + k) % 10 = m
  intro h
  have h10 : m = 0 ∨ m = 1 ∨ m = 2 ∨ m = 3 ∨ m = 4 ∨ m = 5 ∨ m = 6 ∨ m = 7 ∨
      m = 8 ∨ m = 9 := by omega
  rcases h10 with rfl | rfl | rfl | rfl | rfl | rfl | rfl | rfl | rfl | rfl <;> decide

set_option maxRecDepth 100000 in
/-- C3 counterexample: on the input of the claim, the cipher does not keep
the original separators: it emits the canonical layout `(888) 456-7890`,
which neither equals nor contains a match of `\d{3}-\d{3}-\d{4}`. -/
theorem c3_counterexample :
    apply_format_preserving_encryption "k" "555-123-4567" .PHONE = "(888) 456-7890" ∧
    matchesDashPhone (apply_format_preserving_encryption "k" "555-123-4567" .PHONE) = false ∧
    containsDashPhone (apply_format_preserving_encryption "k" "555-123-4567" .PHONE) = false := by
  refine ⟨rfl, rfl, rfl⟩

theorem chunks4_nil (n : Nat) : chunks4 n ([] : List Char) = [] := by
  cases n <;> rfl

theorem chunks4_zero (l : List Char) : chunks4 0 l = [] := by
  cases l <;> rfl

theorem chunks4_flatten : ∀ (n : Nat) (l : List Char), l.length ≤ n →
    (chunks4 n l).flatten = l := by
  intro n
  induction n with
  | zero =>
    intro l h
    have hl : l = [] := List.length_eq_zero.mp (Nat.le_zero.mp h)
    subst hl
    rfl
  | succ n ih =>
    intro l h
    cases l with
    | nil => rfl
    | cons c cs =>
      show (List.take 4 (c :: cs) :: chunks4 n (List.drop 4 (c :: cs))).flatten = c :: cs
      rw [List.flatten_cons]
      rw [ih (List.drop 4 (c :: cs)) ?_]
      · exact List.take_append_drop 4 (c :: cs)
      · rw [List.length_drop]
        simp only [List.length_cons] at h ⊢
        omega

theorem chunks4_group_bounds : ∀ (n : Nat) (l : List Char), ∀ g ∈ chunks4 n l,
    1 ≤ g.length ∧ g.length ≤ 4 := by
  intro n
  induction n with
  | zero =>
    intro l g hg
    rw [chunks4_zero] at hg
    exact absurd hg (List.not_mem_nil g)
  | succ n ih =>
    intro l g hg
    cases l with
    | nil => exact absurd hg (List.not_mem_nil g)
    | cons c cs =>
      simp only [chunks4] at hg
      rcases List.mem_cons.mp hg with rfl | hg2
      · simp only [List.length_take, List.length_cons]
        omega
      · exact ih _ g hg2

theorem chunks4_group_mem : ∀ (n : Nat) (l : List Char), ∀ g ∈ chunks4 n l,
    ∀ c ∈ g, c ∈ l := by
  intro n
  induction n with
  | zero =>
    intro l g hg
    rw [chunks4_zero] at hg
    exact absurd hg (List.not_mem_nil g)
  | succ n ih =>
    intro l g hg
    cases l with
    | nil => exact absurd hg (List.not_mem_nil g)
    | cons c cs =>
      simp only [chunks4] at hg
      rcases List.mem_cons.mp hg with rfl | hg2
      · intro c2 hc2
        exact List.take_subset 4 (c :: cs) hc2
      · intro c2 hc2
        exact List.drop_subset 4 (c :: cs) (ih _ g hg2 c2 hc2)

theorem chunks4_dropLast : ∀ (n : Nat) (l : List Char),
    ∀ g ∈ (chunks4 n l).dropLast, g.length = 4 := by
  intro n
  induction n with
  | zero =>
    intro l g hg
    rw [chunks4_zero] at hg
    exact absurd hg (List.not_mem_nil g)
  | succ n ih =>
    intro l g hg
    cases l with
    | nil => exact absurd hg (List.not_mem_nil g)
    | cons c cs =>
      simp only [chunks4] at hg
      cases hrest : chunks4 n (List.drop 4 (c :: cs)) with
      | nil =>
        rw [hrest] at hg
        simp only [List.dropLast_single] at hg
        exact absurd hg (List.not_mem_nil g)
      | cons r rs =>
        rw [hrest, List.dropLast_cons₂] at hg
        rcases List.mem_cons.mp hg with rfl | hg2
        · have hne : List.drop 4 (c :: cs) ≠ [] := by
            intro hnil
            rw [hnil, chunks4_nil] at hrest
            exact List.noConfusion hrest
          have hlen : 4 < cs.length + 1 := by
            by_contra hc2
            push_neg at hc2
            exact hne (List.drop_eq_nil_of_le (by simpa using hc2))
          simp only [List.length_take, List.length_cons]
          omega
        · rw [← hrest] at hg2
          exact ih _ g hg2

/-- C3 amended: for a structured numeric value with the expected digit count,
the cipher shifts each digit by the fixed per-type amount mod 10, but emits a
canonical per-type layout instead of re-inserting the original separators:
for a ten-digit PHONE value the layout `(ddd) ddd-dddd` over the digits
shifted by 3; for a nine-digit SSN value the layout `ddd-dd-dddd` over the
digits shifted by 1; and for a CREDIT_CARD value of at least thirteen digits
the digits shifted by 2 broken into dash-joined groups of four. -/
theorem c3_amended (sk text1 text2 text3 : String)
    (h1 : (pyDigits text1).length = 10)
    (h2 : (pyDigits text2).length = 9)
    (h3 : (pyDigits text3).length ≥ 13) :
    (ParenPhoneShape (apply_format_preserving_encryption sk text1 .PHONE) ∧
     pyDigits (apply_format_preserving_encryption sk text1 .PHONE) =
       (pyDigits text1).map (shiftDigitChar 3)) ∧
    (SsnDashShape (apply_format_preserving_encryption sk text2 .SSN) ∧
     pyDigits (apply_format_preserving_encryption sk text2 .SSN) =
       (pyDigits text2).map (shiftDigitChar 1)) ∧
    CcDashShape (apply_format_preserving_encryption sk text3 .CREDIT_CARD)
      ((pyDigits text3).map (shiftDigitChar 2)) := by
  have hfil : ∀ (k : Nat) (t : String) (l2 : List Char),
      l2.Sublist ((pyDigits t).map (shiftDigitChar k)) →
      l2.filter Char.isDigit = l2 := by
    intro k t l2 hsub
    refine List.filter_eq_self.mpr ?_
    intro c hc
    rcases List.mem_map.mp (hsub.mem hc) with ⟨d, -, rfl⟩
    exact isDigit_shiftDigitChar k d
  refine ⟨?_, ?_, ?_⟩
  · -- PHONE
    have hdig : ∀ c ∈ (pyDigits text1).map (shiftDigitChar 3), c.isDigit = true := by
      intro c hc
      rcases List.mem_map.mp hc with ⟨d, -, rfl⟩
      exact isDigit_shiftDigitChar 3 d
    set e := (pyDigits text1).map (shiftDigitChar 3) with he
    have hlen : e.length = 10 := by rw [he, List.length_map, h1]
    have hout : apply_format_preserving_encryption sk text1 .PHONE =
        String.mk ('(' :: (e.take 3 ++ [')', ' '] ++ (e.drop 3).take 3 ++ '-' :: e.drop 6)) := by
      have hstep : apply_format_preserving_encryption sk text1 .PHONE =
          if (pyDigits text1).length = 10 then
            "(" ++ String.mk (e.take 3) ++ ") " ++ String.mk ((e.drop 3).take 3) ++
              "-" ++ String.mk (e.drop 6)
          else generate_deterministic_token sk text1 .PHONE := rfl
      rw [hstep, if_pos h1]
      show String.mk (((((['('] ++ e.take 3) ++ [')', ' ']) ++ (e.drop 3).take 3) ++ ['-']) ++ e.drop 6) = _
      exact congrArg String.mk (by simp [List.append_assoc])
    have hg23 : (e.drop 3).take 3 ++ e.drop 6 = e.drop 3 := by
      have hd : e.drop 6 = (e.drop 3).drop 3 := by
        rw [List.drop_drop]
      rw [hd, List.take_append_drop]
    constructor
    · refine ⟨e.take 3, (e.drop 3).take 3, e.drop 6, ?_, ?_, ?_, ?_, ?_⟩
      · rw [hout]
      · rw [List.length_take, hlen]
        decide
      · rw [List.length_take, List.length_drop, hlen]
        decide
      · rw [List.length_drop, hlen]
      · rw [List.append_assoc, hg23, List.take_append_drop]
        exact List.all_eq_true.mpr hdig
    · rw [hout]
      show List.filter Char.isDigit
          ('(' :: (e.take 3 ++ [')', ' '] ++ (e.drop 3).take 3 ++ '-' :: e.drop 6)) = e
      simp [List.filter_append, List.filter_cons,
        show Char.isDigit '(' = false from rfl, show Char.isDigit ')' = false from rfl,
        show Char.isDigit ' ' = false from rfl, show Char.isDigit '-' = false from rfl,
        hfil 3 text1 _ (List.take_sublist 3 e),
        hfil 3 text1 _ ((List.take_sublist 3 _).trans (List.drop_sublist 3 e)),
        hfil 3 text1 _ (List.drop_sublist 6 e), List.append_assoc]
      rw [hg23, List.take_append_drop]
  · -- SSN
    have hdig : ∀ c ∈ (pyDigits text2).map (shiftDigitChar 1), c.isDigit = true := by
      intro c hc
      rcases List.mem_map.mp hc with ⟨d, -, rfl⟩
      exact isDigit_shiftDigitChar 1 d
    set e := (pyDigits text2).map (shiftDigitChar 1) with he
    have hlen : e.length = 9 := by rw [he, List.length_map, h2]
    have hout : apply_format_preserving_encryption sk text2 .SSN =
        String.mk (e.take 3 ++ ('-' :: ((e.drop 3).take 2 ++ ('-' :: e.drop 5)))) := by
      have hstep : apply_format_preserving_encryption sk text2 .SSN =
          if (pyDigits text2).length = 9 then
            String.mk (e.take 3) ++ "-" ++ String.mk ((e.drop 3).take 2) ++
              "-" ++ String.mk (e.drop 5)
          else generate_deterministic_token sk text2 .SSN := rfl
      rw [hstep, if_pos h2]
      show String.mk ((((e.take 3 ++ ['-']) ++ (e.drop 3).take 2) ++ ['-']) ++ e.drop 5) = _
      exact congrArg String.mk (by simp [List.append_assoc])
    have hg23 : (e.drop 3).take 2 ++ e.drop 5 = e.drop 3 := by
      have hd : e.drop 5 = (e.drop 3).drop 2 := by
        rw [List.drop_drop]
      rw [hd, List.take_append_drop]
    constructor
    · refine ⟨e.take 3, (e.drop 3).take 2, e.drop 5, ?_, ?_, ?_, ?_, ?_⟩
      · rw [hout]
      · rw [List.length_take, hlen]
        decide
      · rw [List.length_take, List.length_drop, hlen]
        decide
      · rw [List.length_drop, hlen]
      · rw [List.append_assoc, hg23, List.take_append_drop]
        exact List.all_eq_true.mpr hdig
    · rw [hout]
      show List.filter Char.isDigit
          (e.take 3 ++ ('-' :: ((e.drop 3).take 2 ++ ('-' :: e.drop 5)))) = e
      simp [List.filter_append, List.filter_cons,
        show Char.isDigit '-' = false from rfl,
        hfil 1 text2 _ (List.take_sublist 3 e),
        hfil 1 text2 _ ((List.take_sublist 2 _).trans (List.drop_sublist 3 e)),
        hfil 1 text2 _ (List.drop_sublist 5 e), List.append_assoc]
      rw [hg23, List.take_append_drop]
  · -- CREDIT_CARD
    set e := (pyDigits text3).map (shiftDigitChar 2) with he
    have hstep : apply_format_preserving_encryption sk text3 .CREDIT_CARD =
        if (pyDigits text3).length ≥ 13 then
          String.intercalate "-" ((chunks4 e.length e).map String.mk)
        else generate_deterministic_token sk text3 .CREDIT_CARD := rfl
    rw [hstep, if_pos h3]
    refine ⟨chunks4 e.length e, rfl, chunks4_flatten e.length e (Nat.le_refl _),
      ?_, chunks4_dropLast e.length e⟩
    intro g hg
    obtain ⟨hg1, hg4⟩ := chunks4_group_bounds e.length e g hg
    refine ⟨hg1, hg4, List.all_eq_true.mpr ?_⟩
    intro c hc
    rcases List.mem_map.mp (chunks4_group_mem e.length e g hg c hc) with ⟨d, -, rfl⟩
    exact isDigit_shiftDigitChar 2 d

/-- Witness for C3 amended, at the concrete phone input of the claim together
with a concrete SSN and a concrete credit-card number. -/
theorem c3_amended_witness :
    ((pyDigits "555-123-4567").length = 10 ∧
     (pyDigits "123-45-6789").length = 9 ∧
     (pyDigits "4111-1111-1111-1111").length ≥ 13) ∧
    ((ParenPhoneShape (apply_format_preserving_encryption "k" "555-123-4567" .PHONE) ∧
      pyDigits (apply_format_preserving_encryption "k" "555-123-4567" .PHONE) =
        (pyDigits "555-123-4567").map (shiftDigitChar 3)) ∧
     (SsnDashShape (apply_format_preserving_encryption "k" "123-45-6789" .SSN) ∧
      pyDigits (apply_format_preserving_encryption "k" "123-45-6789" .SSN) =
        (pyDigits "123-45-6789").map (shiftDigitChar 1)) ∧
     CcDashShape (apply_format_preserving_encryption "k" "4111-1111-1111-1111" .CREDIT_CARD)
       ((pyDigits "4111-1111-1111-1111").map (shiftDigitChar 2))) :=
  ⟨⟨by decide, by decide, by decide⟩,
   c3_amended "k" "555-123-4567" "123-45-6789" "4111-1111-1111-1111"
     (by decide) (by decide) (by decide)⟩

/-- C8 (behaviour at the failing input): constructing the service with no
secret key argument and no environment key does not raise a configuration
error; it silently substitutes the freshly generated random value
`secrets.token_hex(32)` as the secret key and completes construction. -/
theorem c8_init_no_key_substitutes_fresh (fresh_hex : String) (loaded : TokenMap) :
    privacyServiceInit none none fresh_hex loaded =
      { secret_key := fresh_hex,
        vault := { token_map := loaded, saved_map := loaded } } := rfl

theorem mapFind_mapInsert_self (m : TokenMap) (k v : String) :
    mapFind (mapInsert m k v) k = some v := by
  simp [mapInsert, mapFind]

theorem get_or_create_found {sk v : String} {st : VaultState} {t : EntityType}
    {tok : String} (h : mapFind st.token_map (tokenKey t v) = some tok) :
    get_or_create_replacement sk st v t = (tok, st) := by
  unfold get_or_create_replacement
  rw [h]

theorem get_or_create_miss {sk v : String} {st : VaultState} {t : EntityType}
    (h : mapFind st.token_map (tokenKey t v) = none) :
    get_or_create_replacement sk st v t =
      (generate_deterministic_token sk v t,
       { token_map :=
           mapInsert st.token_map (tokenKey t v) (generate_deterministic_token sk v t),
         saved_map :=
           mapInsert st.token_map (tokenKey t v) (generate_deterministic_token sk v t) }) := by
  unfold get_or_create_replacement
  rw [h]

/-- C4: the derived token is the angle-bracket wrapping of the entity-type
value and the first 8 hexadecimal characters of the keyed HMAC-SHA256 digest
of `type:lowercase(value)`; two original values equal up to letter case
yield the same token; and for a well-formed vault,
`get_or_create_replacement` returns exactly this derived token both when the
key is newly inserted and when it is already present. -/
theorem c4_token_vault_derivation (sk : String) (t : EntityType) (v v2 : String)
    (st : VaultState) (hcase : pyLower v = pyLower v2) (hinv : VaultInv sk st) :
    generate_deterministic_token sk v t =
      "<" ++ t.value ++ ":" ++
        (hmacSha256Hex (strBytes sk) (strBytes (t.value ++ ":" ++ pyLower v))).take 8 ++ ">" ∧
    generate_deterministic_token sk v t = generate_deterministic_token sk v2 t ∧
    (get_or_create_replacement sk st v t).1 = generate_deterministic_token sk v t ∧
    (get_or_create_replacement sk st v2 t).1 = generate_deterministic_token sk v t := by
  have hgen : generate_deterministic_token sk v t = generate_deterministic_token sk v2 t := by
    unfold generate_deterministic_token
    rw [hcase]
  have hfst : ∀ w : String,
      (get_or_create_replacement sk st w t).1 = generate_deterministic_token sk w t := by
    intro w
    rcases hm : mapFind st.token_map (tokenKey t w) with _ | tok
    · rw [get_or_create_miss hm]
    · rw [get_or_create_found hm]
      exact hinv t w tok hm
  exact ⟨rfl, hgen, hfst v, (hfst v2).trans hgen.symm⟩

/-- Witness for C4 at a concrete key, entity type, value pair differing only
in letter case, and the empty vault. -/
theorem c4_witness :
    pyLower "John@Example.COM" = pyLower "john@example.com" ∧
    VaultInv "testkey" { token_map := [], saved_map := [] } ∧
    (generate_deterministic_token "testkey" "John@Example.COM" .EMAIL =
      "<" ++ EntityType.EMAIL.value ++ ":" ++
        (hmacSha256Hex (strBytes "testkey")
          (strBytes (EntityType.EMAIL.value ++ ":" ++ pyLower "John@Example.COM"))).take 8 ++ ">" ∧
     generate_deterministic_token "testkey" "John@Example.COM" .EMAIL =
       generate_deterministic_token "testkey" "john@example.com" .EMAIL ∧
     (get_or_create_replacement "testkey" { token_map := [], saved_map := [] }
        "John@Example.COM" .EMAIL).1 =
       generate_deterministic_token "testkey" "John@Example.COM" .EMAIL ∧
     (get_or_create_replacement "testkey" { token_map := [], saved_map := [] }
        "john@example.com" .EMAIL).1 =
       generate_deterministic_token "testkey" "John@Example.COM" .EMAIL) :=
 by
  have hinv : VaultInv "testkey" { token_map := [], saved_map := [] } := by
    intro t w tok h
    simp [mapFind] at h
  exact ⟨rfl, hinv,
    c4_token_vault_derivation "testkey" .EMAIL "John@Example.COM" "john@example.com"
      { token_map := [], saved_map := [] } rfl hinv⟩

theorem mapExtends_refl (m : TokenMap) : MapExtends m m := fun _ _ h => h

theorem mapExtends_trans {m1 m2 m3 : TokenMap}
    (h1 : MapExtends m1 m2) (h2 : MapExtends m2 m3) : MapExtends m1 m3 :=
  fun k v h => h2 k v (h1 k v h)

theorem mapExtends_insert (m : TokenMap) (k v : String)
    (h : mapFind m k = none) : MapExtends m (mapInsert m k v) := by
  intro k2 v2 h2
  show mapFind ((k, v) :: m) k2 = some v2
  rw [mapFind]
  by_cases hk : k = k2
  · subst hk
    rw [h] at h2
    exact absurd h2 (by simp)
  · rw [if_neg hk]
    exact h2

theorem get_or_create_extends (sk v : String) (st : VaultState) (t : EntityType) :
    MapExtends st.token_map (get_or_create_replacement sk st v t).2.token_map := by
  rcases hm : mapFind st.token_map (tokenKey t v) with _ | tok
  · rw [get_or_create_miss hm]
    exact mapExtends_insert _ _ _ hm
  · rw [get_or_create_found hm]
    exact mapExtends_refl _

theorem get_or_create_key_found (sk v : String) (st : VaultState) (t : EntityType) :
    mapFind (get_or_create_replacement sk st v t).2.token_map (tokenKey t v) =
      some (get_or_create_replacement sk st v t).1 := by
  rcases hm : mapFind st.token_map (tokenKey t v) with _ | tok
  · rw [get_or_create_miss hm]
    exact mapFind_mapInsert_self _ _ _
  · rw [get_or_create_found hm]
    exact hm

theorem get_or_create_synced {sk v : String} {st : VaultState} {t : EntityType}
    (h : VaultSynced st) : VaultSynced (get_or_create_replacement sk st v t).2 := by
  rcases hm : mapFind st.token_map (tokenKey t v) with _ | tok
  · rw [get_or_create_miss hm]
    rfl
  · rw [get_or_create_found hm]
    exact h

theorem vaultStep_extends {st st2 : VaultState} (h : VaultStep st st2) :
    MapExtends st.token_map st2.token_map := by
  rcases h with ⟨sk, v, t, rfl⟩
  exact get_or_create_extends sk v st t

theorem vaultReachable_extends {st st2 : VaultState} (h : VaultReachable st st2) :
    MapExtends st.token_map st2.token_map := by
  induction h with
  | refl => exact mapExtends_refl _
  | tail _ hstep ih => exact mapExtends_trans ih (vaultStep_extends hstep)

theorem nerPass_extends (sk : String) (cfg : PrivacyConfig) (l : List NerEnt)
    (st : VaultState) :
    MapExtends st.token_map (nerPass sk cfg l st).2.token_map := by
  induction l generalizing st with
  | nil => exact mapExtends_refl _
  | cons ent rest ih =>
    cases hl : strToEntityType ent.label with
    | none =>
      simp only [nerPass, hl]
      exact ih st
    | some t =>
      simp only [nerPass, hl]
      by_cases hmem : t ∈ cfg.entities
      · rw [if_pos hmem]
        by_cases hconf : mkRat 9 10 ≥ cfg.confidence_threshold
        · rw [if_pos hconf]
          exact mapExtends_trans (get_or_create_extends sk ent.text st t) (ih _)
        · rw [if_neg hconf]
          exact ih st
      · rw [if_neg hmem]
        exact ih st

theorem regexPassType_extends (sk : String) (t : EntityType) (l : List RegexMatch)
    (st : VaultState) :
    MapExtends st.token_map (regexPassType sk t l st).2.token_map := by
  induction l generalizing st with
  | nil => exact mapExtends_refl _
  | cons m rest ih =>
    simp only [regexPassType]
    exact mapExtends_trans (get_or_create_extends sk m.text st t) (ih _)

theorem regexPass_extends (sk : String) (cfg : PrivacyConfig)
    (rgx : EntityType → List RegexMatch) (ts : List EntityType) (st : VaultState) :
    MapExtends st.token_map (regexPass sk cfg rgx ts st).2.token_map := by
  induction ts generalizing st with
  | nil => exact mapExtends_refl _
  | cons t rest ih =>
    simp only [regexPass]
    by_cases hmem : t ∈ cfg.entities
    · rw [if_pos hmem]
      exact mapExtends_trans (regexPassType_extends sk t (rgx t) st) (ih _)
    · rw [if_neg hmem]
      exact ih st

theorem detect_extends (sk : String) (ner : List NerEnt)
    (rgx : EntityType → List RegexMatch) (lvl : PrivacyLevel) (st : VaultState) :
    MapExtends st.token_map
      (detect_sensitive_entities sk ner rgx lvl st).2.token_map := by
  show MapExtends st.token_map (collectCandidates sk ner rgx lvl st).2.token_map
  exact mapExtends_trans (nerPass_extends sk _ ner st) (regexPass_extends sk _ rgx _ _)

theorem nerPass_stable (sk : String) (cfg : PrivacyConfig) (l : List NerEnt)
    (st : VaultState) {st2 : VaultState}
    (h : MapExtends (nerPass sk cfg l st).2.token_map st2.token_map) :
    nerPass sk cfg l st2 = ((nerPass sk cfg l st).1, st2) := by
  induction l generalizing st st2 with
  | nil => rfl
  | cons ent rest ih =>
    cases hl : strToEntityType ent.label with
    | none =>
      simp only [nerPass, hl] at h ⊢
      exact ih st h
    | some t =>
      by_cases hmem : t ∈ cfg.entities
      · by_cases hconf : mkRat 9 10 ≥ cfg.confidence_threshold
        · simp only [nerPass, hl, if_pos hmem, if_pos hconf] at h ⊢
          have hkey : mapFind st2.token_map (tokenKey t ent.text) =
              some (get_or_create_replacement sk st ent.text t).1 :=
            h _ _ (nerPass_extends sk cfg rest _ _ _
              (get_or_create_key_found sk ent.text st t))
          rw [get_or_create_found hkey]
          rw [ih _ h]
        · simp only [nerPass, hl, if_pos hmem, if_neg hconf] at h ⊢
          exact ih st h
      · simp only [nerPass, hl, if_neg hmem] at h ⊢
        exact ih st h

theorem regexPassType_stable (sk : String) (t : EntityType) (l : List RegexMatch)
    (st : VaultState) {st2 : VaultState}
    (h : MapExtends (regexPassType sk t l st).2.token_map st2.token_map) :
    regexPassType sk t l st2 = ((regexPassType sk t l st).1, st2) := by
  induction l generalizing st st2 with
  | nil => rfl
  | cons m rest ih =>
    simp only [regexPassType] at h ⊢
    have hkey : mapFind st2.token_map (tokenKey t m.text) =
        some (get_or_create_replacement sk st m.text t).1 :=
      h _ _ (regexPassType_extends sk t rest _ _ _
        (get_or_create_key_found sk m.text st t))
    rw [get_or_create_found hkey]
    rw [ih _ h]

theorem regexPass_stable (sk : String) (cfg : PrivacyConfig)
    (rgx : EntityType → List RegexMatch) (ts : List EntityType)
    (st : VaultState) {st2 : VaultState}
    (h : MapExtends (regexPass sk cfg rgx ts st).2.token_map st2.token_map) :
    regexPass sk cfg rgx ts st2 = ((regexPass sk cfg rgx ts st).1, st2) := by
  induction ts generalizing st st2 with
  | nil => rfl
  | cons t rest ih =>
    by_cases hmem : t ∈ cfg.entities
    · simp only [regexPass, if_pos hmem] at h ⊢
      have h1 : MapExtends (regexPassType sk t (rgx t) st).2.token_map st2.token_map :=
        mapExtends_trans (regexPass_extends sk cfg rgx rest _) h
      rw [regexPassType_stable sk t (rgx t) st h1]
      rw [ih _ h]
    · simp only [regexPass, if_neg hmem] at h ⊢
      exact ih st h

theorem collect_stable (sk : String) (ner : List NerEnt)
    (rgx : EntityType → List RegexMatch) (lvl : PrivacyLevel)
    (st : VaultState) {st2 : VaultState}
    (h : MapExtends (collectCandidates sk ner rgx lvl st).2.token_map st2.token_map) :
    collectCandidates sk ner rgx lvl st2 = ((collectCandidates sk ner rgx lvl st).1, st2) := by
  have hner : MapExtends (nerPass sk (privacy_configs lvl) ner st).2.token_map
      st2.token_map :=
    mapExtends_trans (regexPass_extends sk _ rgx patternOrder _) h
  show ((nerPass sk (privacy_configs lvl) ner st2).1 ++
      (regexPass sk (privacy_configs lvl) rgx patternOrder
        (nerPass sk (privacy_configs lvl) ner st2).2).1,
    (regexPass sk (privacy_configs lvl) rgx patternOrder
      (nerPass sk (privacy_configs lvl) ner st2).2).2) = _
  rw [nerPass_stable sk _ ner st hner]
  rw [regexPass_stable sk _ rgx patternOrder _ h]
  rfl

theorem detect_stable (sk : String) (ner : List NerEnt)
    (rgx : EntityType → List RegexMatch) (lvl : PrivacyLevel)
    (st : VaultState) {st2 : VaultState}
    (h : MapExtends (detect_sensitive_entities sk ner rgx lvl st).2.token_map
      st2.token_map) :
    detect_sensitive_entities sk ner rgx lvl st2 =
      ((detect_sensitive_entities sk ner rgx lvl st).1, st2) := by
  show (remove_overlapping_entities (collectCandidates sk ner rgx lvl st2).1,
    (collectCandidates sk ner rgx lvl st2).2) = _
  rw [collect_stable sk ner rgx lvl st h]
  rfl

theorem sanitize_stable (sk : String) (ner : List NerEnt)
    (rgx : EntityType → List RegexMatch) (text : String) (lvl : PrivacyLevel)
    (pres : Bool) (st : VaultState) {st2 : VaultState}
    (h : MapExtends (sanitize_text sk ner rgx text lvl pres st).2.token_map
      st2.token_map) :
    sanitize_text sk ner rgx text lvl pres st2 =
      ((sanitize_text sk ner rgx text lvl pres st).1, st2) := by
  have hd : detect_sensitive_entities sk ner rgx lvl st2 =
      ((detect_sensitive_entities sk ner rgx lvl st).1, st2) :=
    detect_stable sk ner rgx lvl st h
  unfold sanitize_text
  rw [hd]

theorem insertByB_perm (lt : SensitiveSpan → SensitiveSpan → Bool)
    (x : SensitiveSpan) (l : List SensitiveSpan) :
    (insertByB lt x l).Perm (x :: l) := by
  induction l with
  | nil => exact List.Perm.refl _
  | cons y ys ih =>
    unfold insertByB
    by_cases h : lt y x = true
    · rw [if_pos h]
      exact (List.Perm.cons y ih).trans (List.Perm.swap x y ys)
    · rw [if_neg h]

theorem sortByB_perm (lt : SensitiveSpan → SensitiveSpan → Bool)
    (l : List SensitiveSpan) : (sortByB lt l).Perm l := by
  induction l with
  | nil => exact List.Perm.refl _
  | cons z zs ih =>
    exact (insertByB_perm lt z (sortByB lt zs)).trans (List.Perm.cons z ih)

theorem keepNonOverlapping_mem {l acc : List SensitiveSpan} {x : SensitiveSpan}
    (h : x ∈ keepNonOverlapping acc l) : x ∈ acc ∨ x ∈ l := by
  induction l generalizing acc with
  | nil =>
    rw [keepNonOverlapping] at h
    exact Or.inl h
  | cons e rest ih =>
    rw [keepNonOverlapping] at h
    by_cases hc : (acc.any fun ad => overlapsB e ad) = true
    · rw [if_pos hc] at h
      rcases ih h with h1 | h1
      · exact Or.inl h1
      · exact Or.inr (List.mem_cons_of_mem e h1)
    · rw [if_neg hc] at h
      rcases ih h with h1 | h1
      · rcases List.mem_append.mp h1 with h2 | h2
        · exact Or.inl h2
        · rw [List.mem_singleton] at h2
          exact Or.inr (h2 ▸ List.mem_cons_self e rest)
      · exact Or.inr (List.mem_cons_of_mem e h1)

theorem remove_overlapping_subset {l : List SensitiveSpan} {x : SensitiveSpan}
    (h : x ∈ remove_overlapping_entities l) : x ∈ l := by
  rcases keepNonOverlapping_mem h with h1 | h1
  · exact absurd h1 (List.not_mem_nil x)
  · exact (sortByB_perm spanLtB l).mem_iff.mp h1

theorem nerPass_span_found (sk : String) (cfg : PrivacyConfig) (l : List NerEnt)
    (st : VaultState) :
    ∀ e ∈ (nerPass sk cfg l st).1,
      mapFind (nerPass sk cfg l st).2.token_map (tokenKey e.entity_type e.text) =
        some e.replacement := by
  induction l generalizing st with
  | nil => intro e he; exact absurd he (List.not_mem_nil e)
  | cons ent rest ih =>
    intro e he
    cases hl : strToEntityType ent.label with
    | none =>
      simp only [nerPass, hl] at he ⊢
      exact ih st e he
    | some t =>
      by_cases hmem : t ∈ cfg.entities
      · by_cases hconf : mkRat 9 10 ≥ cfg.confidence_threshold
        · simp only [nerPass, hl, if_pos hmem, if_pos hconf] at he ⊢
          rcases List.mem_cons.mp he with rfl | he2
          · exact nerPass_extends sk cfg rest _ _ _
              (get_or_create_key_found sk ent.text st t)
          · exact ih _ e he2
        · simp only [nerPass, hl, if_pos hmem, if_neg hconf] at he ⊢
          exact ih st e he
      · simp only [nerPass, hl, if_neg hmem] at he ⊢
        exact ih st e he

theorem regexPassType_span_found (sk : String) (t : EntityType)
    (l : List RegexMatch) (st : VaultState) :
    ∀ e ∈ (regexPassType sk t l st).1,
      mapFind (regexPassType sk t l st).2.token_map (tokenKey e.entity_type e.text) =
        some e.replacement := by
  induction l generalizing st with
  | nil => intro e he; exact absurd he (List.not_mem_nil e)
  | cons m rest ih =>
    intro e he
    simp only [regexPassType] at he ⊢
    rcases List.mem_cons.mp he with rfl | he2
    · exact regexPassType_extends sk t rest _ _ _
        (get_or_create_key_found sk m.text st t)
    · exact ih _ e he2

theorem regexPass_span_found (sk : String) (cfg : PrivacyConfig)
    (rgx : EntityType → List RegexMatch) (ts : List EntityType) (st : VaultState) :
    ∀ e ∈ (regexPass sk cfg rgx ts st).1,
      mapFind (regexPass sk cfg rgx ts st).2.token_map (tokenKey e.entity_type e.text) =
        some e.replacement := by
  induction ts generalizing st with
  | nil => intro e he; exact absurd he (List.not_mem_nil e)
  | cons t rest ih =>
    intro e he
    by_cases hmem : t ∈ cfg.entities
    · simp only [regexPass, if_pos hmem] at he ⊢
      rcases List.mem_append.mp he with h1 | h1
      · exact regexPass_extends sk cfg rgx rest _ _ _
          (regexPassType_span_found sk t (rgx t) st e h1)
      · exact ih _ e h1
    · simp only [regexPass, if_neg hmem] at he ⊢
      exact ih st e he

theorem detect_span_found (sk : String) (ner : List NerEnt)
    (rgx : EntityType → List RegexMatch) (lvl : PrivacyLevel) (st : VaultState) :
    ∀ e ∈ (detect_sensitive_entities sk ner rgx lvl st).1,
      mapFind (detect_sensitive_entities sk ner rgx lvl st).2.token_map
        (tokenKey e.entity_type e.text) = some e.replacement := by
  intro e he
  have he2 : e ∈ (collectCandidates sk ner rgx lvl st).1 :=
    remove_overlapping_subset he
  show mapFind (collectCandidates sk ner rgx lvl st).2.token_map _ = _
  rcases List.mem_append.mp he2 with h1 | h1
  · exact regexPass_extends sk _ rgx patternOrder _ _ _
      (nerPass_span_found sk _ ner st e h1)
  · exact regexPass_span_found sk _ rgx patternOrder _ e h1

theorem applyReplacements_found (sk : String) (pres : Bool)
    (l : List SensitiveSpan) (t : List Char) :
    ∀ f ∈ (applyReplacements sk pres l t).2, ∃ e ∈ l,
      f.original = e.text ∧ f.entity_type = e.entity_type ∧
      f.replacement = spanReplacement sk pres e := by
  induction l generalizing t with
  | nil => intro f hf; exact absurd hf (List.not_mem_nil f)
  | cons e rest ih =>
    intro f hf
    simp only [applyReplacements] at hf
    rcases List.mem_cons.mp hf with rfl | hf2
    · exact ⟨e, List.mem_cons_self e rest, rfl, rfl, rfl⟩
    · rcases ih _ f hf2 with ⟨e2, he2, hp⟩
      exact ⟨e2, List.mem_cons_of_mem e he2, hp⟩

/-- C1: with the secret key and the detector capability outputs fixed,
sanitizing the same text at the same privacy level and preserve-format flag
a second time, after any number of intervening vault operations, produces
the identical result (identical sanitized text and identical audit list, so
identical replacement tokens); moreover, across the two runs, audit entries
with the same original value and entity type always carry the same
replacement token. -/
theorem c1_sanitize_deterministic (sk : String) (ner : List NerEnt)
    (rgx : EntityType → List RegexMatch) (text : String) (lvl : PrivacyLevel)
    (pres : Bool) (st st2 : VaultState)
    (h : VaultReachable (sanitize_text sk ner rgx text lvl pres st).2 st2) :
    (sanitize_text sk ner rgx text lvl pres st2).1 =
      (sanitize_text sk ner rgx text lvl pres st).1 ∧
    ∀ f1 ∈ (sanitize_text sk ner rgx text lvl pres st).1.entities_found,
      ∀ f2 ∈ (sanitize_text sk ner rgx text lvl pres st2).1.entities_found,
        f1.original = f2.original → f1.entity_type = f2.entity_type →
          f1.replacement = f2.replacement := by
  have hext := vaultReachable_extends h
  have hstab := sanitize_stable sk ner rgx text lvl pres st hext
  refine ⟨by rw [hstab], ?_⟩
  intro f1 hf1 f2 hf2 ho hty
  rw [hstab] at hf2
  obtain ⟨e1, he1, ho1, ht1, hr1⟩ :=
    applyReplacements_found sk pres
      (sortByB descStartLtB (detect_sensitive_entities sk ner rgx lvl st).1)
      text.data f1 hf1
  obtain ⟨e2, he2, ho2, ht2, hr2⟩ :=
    applyReplacements_found sk pres
      (sortByB descStartLtB (detect_sensitive_entities sk ner rgx lvl st).1)
      text.data f2 hf2
  have he1d : e1 ∈ (detect_sensitive_entities sk ner rgx lvl st).1 :=
    (sortByB_perm descStartLtB _).mem_iff.mp he1
  have he2d : e2 ∈ (detect_sensitive_entities sk ner rgx lvl st).1 :=
    (sortByB_perm descStartLtB _).mem_iff.mp he2
  have hk1 := detect_span_found sk ner rgx lvl st e1 he1d
  have hk2 := detect_span_found sk ner rgx lvl st e2 he2d
  have htt : e1.entity_type = e2.entity_type := by
    rw [← ht1, ← ht2]
    exact hty
  have htx : e1.text = e2.text := by
    rw [← ho1, ← ho2]
    exact ho
  have hrep : e1.replacement = e2.replacement := by
    rw [htt, htx] at hk1
    exact Option.some.inj (hk1.symm.trans hk2)
  rw [hr1, hr2]
  unfold spanReplacement
  rw [htt, htx, hrep]

/-- Witness for C1 at a concrete key, capability outputs, text and state,
with no intervening vault operation. -/
theorem c1_witness :
    (sanitize_text "k" [] (fun _ => []) "a" .STANDARD true
        (sanitize_text "k" [] (fun _ => []) "a" .STANDARD true
          { token_map := [], saved_map := [] }).2).1 =
      (sanitize_text "k" [] (fun _ => []) "a" .STANDARD true
        { token_map := [], saved_map := [] }).1 ∧
    ∀ f1 ∈ (sanitize_text "k" [] (fun _ => []) "a" .STANDARD true
        { token_map := [], saved_map := [] }).1.entities_found,
      ∀ f2 ∈ (sanitize_text "k" [] (fun _ => []) "a" .STANDARD true
          (sanitize_text "k" [] (fun _ => []) "a" .STANDARD true
            { token_map := [], saved_map := [] }).2).1.entities_found,
        f1.original = f2.original → f1.entity_type = f2.entity_type →
          f1.replacement = f2.replacement :=
  c1_sanitize_deterministic "k" [] (fun _ => []) "a" .STANDARD true
    { token_map := [], saved_map := [] } _ Relation.ReflTransGen.refl

theorem nerPass_synced (sk : String) (cfg : PrivacyConfig) (l : List NerEnt)
    {st : VaultState} (hs : VaultSynced st) :
    VaultSynced (nerPass sk cfg l st).2 := by
  induction l generalizing st with
  | nil => exact hs
  | cons ent rest ih =>
    cases hl : strToEntityType ent.label with
    | none =>
      simp only [nerPass, hl]
      exact ih hs
    | some t =>
      by_cases hmem : t ∈ cfg.entities
      · by_cases hconf : mkRat 9 10 ≥ cfg.confidence_threshold
        · simp only [nerPass, hl, if_pos hmem, if_pos hconf]
          exact ih (get_or_create_synced hs)
        · simp only [nerPass, hl, if_pos hmem, if_neg hconf]
          exact ih hs
      · simp only [nerPass, hl, if_neg hmem]
        exact ih hs

theorem regexPassType_synced (sk : String) (t : EntityType) (l : List RegexMatch)
    {st : VaultState} (hs : VaultSynced st) :
    VaultSynced (regexPassType sk t l st).2 := by
  induction l generalizing st with
  | nil => exact hs
  | cons m rest ih =>
    simp only [regexPassType]
    exact ih (get_or_create_synced hs)

theorem regexPass_synced (sk : String) (cfg : PrivacyConfig)
    (rgx : EntityType → List RegexMatch) (ts : List EntityType)
    {st : VaultState} (hs : VaultSynced st) :
    VaultSynced (regexPass sk cfg rgx ts st).2 := by
  induction ts generalizing st with
  | nil => exact hs
  | cons t rest ih =>
    by_cases hmem : t ∈ cfg.entities
    · simp only [regexPass, if_pos hmem]
      exact ih (regexPassType_synced sk t (rgx t) hs)
    · simp only [regexPass, if_neg hmem]
      exact ih hs

theorem nerPass_key_present (sk : String) (cfg : PrivacyConfig) (l : List NerEnt)
    (st : VaultState) (hconf : mkRat 9 10 ≥ cfg.confidence_threshold) :
    ∀ ent ∈ l, ∀ t, strToEntityType ent.label = some t → t ∈ cfg.entities →
      ∃ tok, mapFind (nerPass sk cfg l st).2.token_map (tokenKey t ent.text) =
        some tok := by
  induction l generalizing st with
  | nil => intro ent hent; exact absurd hent (List.not_mem_nil ent)
  | cons ent2 rest ih =>
    intro ent hent t hl hmem
    rcases List.mem_cons.mp hent with rfl | hent2
    · simp only [nerPass, hl, if_pos hmem, if_pos hconf]
      exact ⟨_, nerPass_extends sk cfg rest _ _ _
        (get_or_create_key_found sk ent.text st t)⟩
    · cases hl2 : strToEntityType ent2.label with
      | none =>
        simp only [nerPass, hl2]
        exact ih st ent hent2 t hl hmem
      | some t2 =>
        by_cases hmem2 : t2 ∈ cfg.entities
        · simp only [nerPass, hl2, if_pos hmem2, if_pos hconf]
          exact ih _ ent hent2 t hl hmem
        · simp only [nerPass, hl2, if_neg hmem2]
          exact ih st ent hent2 t hl hmem

theorem regexPassType_key_present (sk : String) (t : EntityType)
    (l : List RegexMatch) (st : VaultState) :
    ∀ m ∈ l, ∃ tok,
      mapFind (regexPassType sk t l st).2.token_map (tokenKey t m.text) = some tok := by
  induction l generalizing st with
  | nil => intro m hm; exact absurd hm (List.not_mem_nil m)
  | cons m2 rest ih =>
    intro m hm
    simp only [regexPassType]
    rcases List.mem_cons.mp hm with rfl | hm2
    · exact ⟨_, regexPassType_extends sk t rest _ _ _
        (get_or_create_key_found sk m.text st t)⟩
    · exact ih _ m hm2

theorem regexPass_key_present (sk : String) (cfg : PrivacyConfig)
    (rgx : EntityType → List RegexMatch) (ts : List EntityType) (st : VaultState) :
    ∀ t ∈ ts, t ∈ cfg.entities → ∀ m ∈ rgx t,
      ∃ tok, mapFind (regexPass sk cfg rgx ts st).2.token_map (tokenKey t m.text) =
        some tok := by
  induction ts generalizing st with
  | nil => intro t ht; exact absurd ht (List.not_mem_nil t)
  | cons t2 rest ih =>
    intro t ht hmem m hm
    rcases List.mem_cons.mp ht with rfl | ht2
    · simp only [regexPass, if_pos hmem]
      rcases regexPassType_key_present sk t (rgx t) st m hm with ⟨tok, htok⟩
      exact ⟨tok, regexPass_extends sk cfg rgx rest _ _ _ htok⟩
    · by_cases hmem2 : t2 ∈ cfg.entities
      · simp only [regexPass, if_pos hmem2]
        exact ih _ t ht2 hmem m hm
      · simp only [regexPass, if_neg hmem2]
        exact ih st t ht2 hmem m hm

theorem privacy_threshold_le (lvl : PrivacyLevel) :
    mkRat 9 10 ≥ (privacy_configs lvl).confidence_threshold := by
  cases lvl <;> norm_num [privacy_configs]

/-- C10: detection alone already mutates and persists the process-wide token
vault. Starting from a vault whose backing file is in sync with memory,
`detect_sensitive_entities` (the operation behind the inspection endpoint
`/entities/detected`, which performs no replacement) leaves the backing file
in sync with the updated in-memory map, and after it returns, a vault entry
exists both in memory and in the backing file for every raw candidate: every
NER entity whose label is a configured type, and every regex match of a
configured pattern family, including candidates that the Span Resolver
discards from the returned span list. -/
theorem c10_detect_mutates_and_persists (sk : String) (ner : List NerEnt)
    (rgx : EntityType → List RegexMatch) (lvl : PrivacyLevel) (st : VaultState)
    (hs : VaultSynced st) :
    VaultSynced (detect_sensitive_entities sk ner rgx lvl st).2 ∧
    (∀ ent ∈ ner, ∀ t, strToEntityType ent.label = some t →
        t ∈ (privacy_configs lvl).entities →
        ∃ tok,
          mapFind (detect_sensitive_entities sk ner rgx lvl st).2.token_map
            (tokenKey t ent.text) = some tok ∧
          mapFind (detect_sensitive_entities sk ner rgx lvl st).2.saved_map
            (tokenKey t ent.text) = some tok) ∧
    (∀ t ∈ patternOrder, t ∈ (privacy_configs lvl).entities → ∀ m ∈ rgx t,
        ∃ tok,
          mapFind (detect_sensitive_entities sk ner rgx lvl st).2.token_map
            (tokenKey t m.text) = some tok ∧
          mapFind (detect_sensitive_entities sk ner rgx lvl st).2.saved_map
            (tokenKey t m.text) = some tok) := by
  have hsync : VaultSynced (detect_sensitive_entities sk ner rgx lvl st).2 :=
    regexPass_synced sk _ rgx patternOrder (nerPass_synced sk _ ner hs)
  refine ⟨hsync, ?_, ?_⟩
  · intro ent hent t hl hmem
    rcases nerPass_key_present sk _ ner st (privacy_threshold_le lvl)
      ent hent t hl hmem with ⟨tok, htok⟩
    refine ⟨tok, regexPass_extends sk _ rgx patternOrder _ _ _ htok, ?_⟩
    rw [show (detect_sensitive_entities sk ner rgx lvl st).2.saved_map =
      (detect_sensitive_entities sk ner rgx lvl st).2.token_map from hsync]
    exact regexPass_extends sk _ rgx patternOrder _ _ _ htok
  · intro t ht hmem m hm
    rcases regexPass_key_present sk _ rgx patternOrder
      (nerPass sk (privacy_configs lvl) ner st).2 t ht hmem m hm with ⟨tok, htok⟩
    refine ⟨tok, htok, ?_⟩
    rw [show (detect_sensitive_entities sk ner rgx lvl st).2.saved_map =
      (detect_sensitive_entities sk ner rgx lvl st).2.token_map from hsync]
    exact htok

/-- Witness for C10 at concrete capability outputs and the empty vault. -/
theorem c10_witness :
    VaultSynced { token_map := [], saved_map := [] } ∧
    (VaultSynced (detect_sensitive_entities "k" cexNer cexRgx .STANDARD
        { token_map := [], saved_map := [] }).2 ∧
     (∀ ent ∈ cexNer, ∀ t, strToEntityType ent.label = some t →
        t ∈ (privacy_configs .STANDARD).entities →
        ∃ tok,
          mapFind (detect_sensitive_entities "k" cexNer cexRgx .STANDARD
              { token_map := [], saved_map := [] }).2.token_map
            (tokenKey t ent.text) = some tok ∧
          mapFind (detect_sensitive_entities "k" cexNer cexRgx .STANDARD
              { token_map := [], saved_map := [] }).2.saved_map
            (tokenKey t ent.text) = some tok) ∧
     (∀ t ∈ patternOrder, t ∈ (privacy_configs .STANDARD).entities → ∀ m ∈ cexRgx t,
        ∃ tok,
          mapFind (detect_sensitive_entities "k" cexNer cexRgx .STANDARD
              { token_map := [], saved_map := [] }).2.token_map
            (tokenKey t m.text) = some tok ∧
          mapFind (detect_sensitive_entities "k" cexNer cexRgx .STANDARD
              { token_map := [], saved_map := [] }).2.saved_map
            (tokenKey t m.text) = some tok)) :=
  ⟨rfl, c10_detect_mutates_and_persists "k" cexNer cexRgx .STANDARD
    { token_map := [], saved_map := [] } rfl⟩

/-- C7 counterexample: with the capability outputs held fixed (one PERSON
entity from the NER model covering the region of an email match and a phone
match), MINIMAL detection returns two spans while STANDARD detection returns
one, because the newly covered PERSON span wins overlap resolution and
evicts both regex spans; the detected-entity count is not monotone in the
privacy level. -/
theorem c7_counterexample :
    (detect_sensitive_entities "k" cexNer cexRgx .MINIMAL cexVault).1.length = 2 ∧
    (detect_sensitive_entities "k" cexNer cexRgx .STANDARD cexVault).1.length = 1 ∧
    ¬((detect_sensitive_entities "k" cexNer cexRgx .STANDARD cexVault).1.length ≥
      (detect_sensitive_entities "k" cexNer cexRgx .MINIMAL cexVault).1.length) := by
  refine ⟨rfl, rfl, by decide⟩

theorem regexPassType_length (sk : String) (t : EntityType) (l : List RegexMatch)
    (st : VaultState) : (regexPassType sk t l st).1.length = l.length := by
  induction l generalizing st with
  | nil => rfl
  | cons m rest ih =>
    simp only [regexPassType, List.length_cons]
    rw [ih]

theorem nerPass_length_le (sk : String) (cfg1 cfg2 : PrivacyConfig)
    (hsub : ∀ t, t ∈ cfg1.entities → t ∈ cfg2.entities)
    (hth2 : mkRat 9 10 ≥ cfg2.confidence_threshold) (l : List NerEnt) :
    ∀ st1 st2 : VaultState,
      (nerPass sk cfg1 l st1).1.length ≤ (nerPass sk cfg2 l st2).1.length := by
  induction l with
  | nil => intro st1 st2; exact Nat.le_refl 0
  | cons ent rest ih =>
    intro st1 st2
    cases hl : strToEntityType ent.label with
    | none =>
      simp only [nerPass, hl]
      exact ih st1 st2
    | some t =>
      by_cases hmem1 : t ∈ cfg1.entities
      · have hmem2 : t ∈ cfg2.entities := hsub t hmem1
        by_cases hth1 : mkRat 9 10 ≥ cfg1.confidence_threshold
        · simp only [nerPass, hl, if_pos hmem1, if_pos hmem2, if_pos hth1, if_pos hth2,
            List.length_cons]
          exact Nat.succ_le_succ (ih _ _)
        · simp only [nerPass, hl, if_pos hmem1, if_pos hmem2, if_neg hth1, if_pos hth2,
            List.length_cons]
          exact (ih _ _).trans (Nat.le_succ _)
      · by_cases hmem2 : t ∈ cfg2.entities
        · simp only [nerPass, hl, if_neg hmem1, if_pos hmem2, if_pos hth2,
            List.length_cons]
          exact (ih _ _).trans (Nat.le_succ _)
        · simp only [nerPass, hl, if_neg hmem1, if_neg hmem2]
          exact ih st1 st2

theorem regexPass_length_le (sk : String) (cfg1 cfg2 : PrivacyConfig)
    (hsub : ∀ t, t ∈ cfg1.entities → t ∈ cfg2.entities)
    (rgx : EntityType → List RegexMatch) (ts : List EntityType) :
    ∀ st1 st2 : VaultState,
      (regexPass sk cfg1 rgx ts st1).1.length ≤
        (regexPass sk cfg2 rgx ts st2).1.length := by
  induction ts with
  | nil => intro st1 st2; exact Nat.le_refl 0
  | cons t rest ih =>
    intro st1 st2
    by_cases hmem1 : t ∈ cfg1.entities
    · have hmem2 : t ∈ cfg2.entities := hsub t hmem1
      simp only [regexPass, if_pos hmem1, if_pos hmem2, List.length_append,
        regexPassType_length]
      exact Nat.add_le_add_left (ih _ _) _
    · by_cases hmem2 : t ∈ cfg2.entities
      · simp only [regexPass, if_neg hmem1, if_pos hmem2, List.length_append,
          regexPassType_length]
        exact (ih _ _).trans (Nat.le_add_left _ _)
      · simp only [regexPass, if_neg hmem1, if_neg hmem2]
        exact ih st1 st2

theorem collect_length_le (sk : String) (ner : List NerEnt)
    (rgx : EntityType → List RegexMatch) (lvl1 lvl2 : PrivacyLevel)
    (hsub : ∀ t, t ∈ (privacy_configs lvl1).entities →
      t ∈ (privacy_configs lvl2).entities) (st1 st2 : VaultState) :
    (collectCandidates sk ner rgx lvl1 st1).1.length ≤
      (collectCandidates sk ner rgx lvl2 st2).1.length := by
  show ((nerPass sk (privacy_configs lvl1) ner st1).1 ++ _).length ≤
    ((nerPass sk (privacy_configs lvl2) ner st2).1 ++ _).length
  rw [List.length_append, List.length_append]
  exact Nat.add_le_add
    (nerPass_length_le sk _ _ hsub (privacy_threshold_le lvl2) ner st1 st2)
    (regexPass_length_le sk _ _ hsub rgx patternOrder _ _)

/-- C7 amended: monotonicity holds for the candidate set before overlap
resolution: for fixed capability outputs, the number of candidate spans
passing the per-level entity-type filter under STRICT is at least that
under STANDARD, which is at least that under MINIMAL (the entity-type lists
are nested and the 0.9 model confidence clears every threshold); after
overlap resolution the retained-span counts need not be monotone. -/
theorem c7_amended (sk : String) (ner : List NerEnt)
    (rgx : EntityType → List RegexMatch) (st1 st2 st3 : VaultState) :
    (collectCandidates sk ner rgx .MINIMAL st1).1.length ≤
      (collectCandidates sk ner rgx .STANDARD st2).1.length ∧
    (collectCandidates sk ner rgx .STANDARD st2).1.length ≤
      (collectCandidates sk ner rgx .STRICT st3).1.length :=
  ⟨collect_length_le sk ner rgx .MINIMAL .STANDARD (by decide) st1 st2,
   collect_length_le sk ner rgx .STANDARD .STRICT (by decide) st2 st3⟩

/-- C9: the batch endpoint never aborts on a failing item. The result list
has one entry per input text; an entry whose sanitization raised an error is
the original unmasked text with privacy score 0, an empty entity list and
the error message, and an entry whose sanitization succeeded is the normal
sanitize output — each item depends only on its own sanitization outcome at
the vault state reached after the preceding items. -/
theorem c9_batch_isolation
    (san : String → VaultState → Except String SanitizeResult × VaultState)
    (lvl : PrivacyLevel) (ts : List String) (st : VaultState) :
    (batch_anonymize_text san lvl ts st).1.length = ts.length ∧
    ∀ i, i < ts.length →
      ((∀ e, (san (ts.getD i "") (batchPrefixState san (ts.take i) st)).1 =
          Except.error e →
          (batch_anonymize_text san lvl ts st).1.getD i defaultBatchItem =
            { sanitized_text := ts.getD i "", privacy_score := 0,
              entities_found := [], privacy_level := lvl, error := some e }) ∧
       (∀ r, (san (ts.getD i "") (batchPrefixState san (ts.take i) st)).1 =
          Except.ok r →
          (batch_anonymize_text san lvl ts st).1.getD i defaultBatchItem =
            { sanitized_text := r.sanitized_text, privacy_score := r.privacy_score,
              entities_found := r.entities_found, privacy_level := lvl,
              error := none })) := by
  induction ts generalizing st with
  | nil =>
    refine ⟨rfl, ?_⟩
    intro i hi
    exact absurd hi (Nat.not_lt_zero i)
  | cons t ts ih =>
    constructor
    · simp only [batch_anonymize_text, List.length_cons]
      rw [(ih (san t st).2).1]
    · intro i hi
      cases i with
      | zero =>
        constructor
        · intro e he
          simp only [List.getD_cons_zero, List.take_zero, batchPrefixState,
            List.foldl_nil] at he
          simp only [batch_anonymize_text, he, List.getD_cons_zero]
        · intro r hr
          simp only [List.getD_cons_zero, List.take_zero, batchPrefixState,
            List.foldl_nil] at hr
          simp only [batch_anonymize_text, hr, List.getD_cons_zero]
      | succ i =>
        have hi' : i < ts.length := Nat.lt_of_succ_lt_succ hi
        have hrec := (ih (san t st).2).2 i hi'
        simp only [List.getD_cons_succ, List.take_succ_cons, batchPrefixState,
          List.foldl_cons, batch_anonymize_text] at hrec ⊢
        exact hrec

/-- Witness for C9: a three-text batch whose middle text fails. -/
theorem c9_witness :
    (batch_anonymize_text cexSan .STANDARD ["a", "bad", "b"]
        { token_map := [], saved_map := [] }).1.length =
      (["a", "bad", "b"] : List String).length ∧
    (1 < (["a", "bad", "b"] : List String).length ∧
      (batch_anonymize_text cexSan .STANDARD ["a", "bad", "b"]
          { token_map := [], saved_map := [] }).1.getD 1 defaultBatchItem =
        { sanitized_text := "bad", privacy_score := 0, entities_found := [],
          privacy_level := .STANDARD, error := some "boom" }) := by
  refine ⟨(c9_batch_isolation cexSan .STANDARD _ _).1, by norm_num, ?_⟩
  exact ((c9_batch_isolation cexSan .STANDARD ["a", "bad", "b"]
      { token_map := [], saved_map := [] }).2 1 (by norm_num)).1 "boom" rfl

theorem insertByB_pairwise_desc (x : SensitiveSpan) (l : List SensitiveSpan)
    (hl : l.Pairwise fun a b => b.start ≤ a.start) :
    (insertByB descStartLtB x l).Pairwise fun a b => b.start ≤ a.start := by
  induction l with
  | nil => simp [insertByB]
  | cons y ys ih =>
    rcases hl with _ | ⟨hy, hys⟩
    unfold insertByB
    by_cases h : descStartLtB y x = true
    · rw [if_pos h]
      refine List.Pairwise.cons ?_ (ih hys)
      intro z hz
      rcases mem_insertByB.mp hz with rfl | hz'
      · rw [descStartLtB, decide_eq_true_iff] at h
        exact le_of_lt h
      · exact hy z hz'
    · rw [if_neg h]
      have hxy : y.start ≤ x.start := by
        rw [descStartLtB, decide_eq_true_iff] at h
        exact le_of_not_lt h
      refine List.Pairwise.cons ?_ (List.Pairwise.cons hy hys)
      intro z hz
      rcases List.mem_cons.mp hz with rfl | hz'
      · exact hxy
      · exact (hy z hz').trans hxy

theorem sortByB_pairwise_desc (l : List SensitiveSpan) :
    (sortByB descStartLtB l).Pairwise fun a b => b.start ≤ a.start := by
  induction l with
  | nil => simp [sortByB]
  | cons z zs ih => exact insertByB_pairwise_desc z _ ih

theorem nerPass_span_origin (sk : String) (cfg : PrivacyConfig) (l : List NerEnt)
    (st : VaultState) :
    ∀ e ∈ (nerPass sk cfg l st).1, ∃ ent ∈ l,
      e.start = ent.start ∧ e.stop = ent.stop := by
  induction l generalizing st with
  | nil => intro e he; exact absurd he (List.not_mem_nil e)
  | cons ent rest ih =>
    intro e he
    cases hl : strToEntityType ent.label with
    | none =>
      simp only [nerPass, hl] at he
      rcases ih st e he with ⟨ent2, h1, h2⟩
      exact ⟨ent2, List.mem_cons_of_mem ent h1, h2⟩
    | some t =>
      by_cases hmem : t ∈ cfg.entities
      · by_cases hconf : mkRat 9 10 ≥ cfg.confidence_threshold
        · simp only [nerPass, hl, if_pos hmem, if_pos hconf] at he
          rcases List.mem_cons.mp he with rfl | he2
          · exact ⟨ent, List.mem_cons_self ent rest, rfl, rfl⟩
          · rcases ih _ e he2 with ⟨ent2, h1, h2⟩
            exact ⟨ent2, List.mem_cons_of_mem ent h1, h2⟩
        · simp only [nerPass, hl, if_pos hmem, if_neg hconf] at he
          rcases ih st e he with ⟨ent2, h1, h2⟩
          exact ⟨ent2, List.mem_cons_of_mem ent h1, h2⟩
      · simp only [nerPass, hl, if_neg hmem] at he
        rcases ih st e he with ⟨ent2, h1, h2⟩
        exact ⟨ent2, List.mem_cons_of_mem ent h1, h2⟩

theorem regexPassType_span_origin (sk : String) (t : EntityType)
    (l : List RegexMatch) (st : VaultState) :
    ∀ e ∈ (regexPassType sk t l st).1, ∃ m ∈ l,
      e.start = m.start ∧ e.stop = m.stop := by
  induction l generalizing st with
  | nil => intro e he; exact absurd he (List.not_mem_nil e)
  | cons m rest ih =>
    intro e he
    simp only [regexPassType] at he
    rcases List.mem_cons.mp he with rfl | he2
    · exact ⟨m, List.mem_cons_self m rest, rfl, rfl⟩
    · rcases ih _ e he2 with ⟨m2, h1, h2⟩
      exact ⟨m2, List.mem_cons_of_mem m h1, h2⟩

theorem regexPass_span_origin (sk : String) (cfg : PrivacyConfig)
    (rgx : EntityType → List RegexMatch) (ts : List EntityType) (st : VaultState) :
    ∀ e ∈ (regexPass sk cfg rgx ts st).1, ∃ t2, ∃ m ∈ rgx t2,
      e.start = m.start ∧ e.stop = m.stop := by
  induction ts generalizing st with
  | nil => intro e he; exact absurd he (List.not_mem_nil e)
  | cons t rest ih =>
    intro e he
    by_cases hmem : t ∈ cfg.entities
    · simp only [regexPass, if_pos hmem] at he
      rcases List.mem_append.mp he with h1 | h1
      · rcases regexPassType_span_origin sk t (rgx t) st e h1 with ⟨m, hm, h2⟩
        exact ⟨t, m, hm, h2⟩
      · exact ih _ e h1
    · simp only [regexPass, if_neg hmem] at he
      exact ih st e he

theorem spliceChars_length (t : List Char) (s e : Nat) (r : List Char)
    (hse : s ≤ e) (het : e ≤ t.length) :
    (spliceChars t s e r).length = s + r.length + (t.length - e) := by
  simp only [spliceChars, List.length_append, List.length_take, List.length_drop]
  omega

theorem applyReplacements_length (sk : String) (pres : Bool)
    (l : List SensitiveSpan) :
    ∀ t : List Char,
      l.Pairwise (fun a b => b.start ≤ a.start) →
      l.Pairwise (fun a b => ¬ Overlap a b) →
      (∀ e ∈ l, e.start ≤ e.stop ∧ e.stop ≤ t.length) →
      (applyReplacements sk pres l t).1.length +
          sumRemovedLens (applyReplacements sk pres l t).2 =
        t.length + sumReplLens (applyReplacements sk pres l t).2 := by
  induction l with
  | nil =>
    intro t _ _ _
    simp [applyReplacements, sumRemovedLens, sumReplLens]
  | cons e rest ih =>
    intro t hsort hdisj hbound
    obtain ⟨hse, het⟩ := hbound e (List.mem_cons_self e rest)
    have hlen1 : (spliceChars t e.start e.stop
        (spanReplacement sk pres e).data).length =
        e.start + (spanReplacement sk pres e).data.length + (t.length - e.stop) :=
      spliceChars_length t e.start e.stop _ hse het
    have hbound2 : ∀ e2 ∈ rest, e2.start ≤ e2.stop ∧
        e2.stop ≤ (spliceChars t e.start e.stop
          (spanReplacement sk pres e).data).length := by
      intro e2 he2
      obtain ⟨h1, h2⟩ := hbound e2 (List.mem_cons_of_mem e he2)
      refine ⟨h1, ?_⟩
      have hst : e2.start ≤ e.start := List.rel_of_pairwise_cons hsort he2
      have hdis : ¬ Overlap e e2 := List.rel_of_pairwise_cons hdisj he2
      rw [hlen1]
      by_cases hlt : e2.stop ≤ e.start
      · omega
      · have hes : e.stop ≤ e2.start := by
          by_contra hc
          push_neg at hc
          exact hdis ⟨by omega, hc⟩
        omega
    have hrec := ih (spliceChars t e.start e.stop (spanReplacement sk pres e).data)
      (List.Pairwise.of_cons hsort) (List.Pairwise.of_cons hdisj) hbound2
    simp only [applyReplacements, sumRemovedLens, sumReplLens, List.map_cons,
      List.sum_cons] at hrec ⊢
    omega

/-- C6: the Sanitizer splices replacements right to left over the resolver
output, and the sanitized text length equals the original length minus the
sum of the replaced span lengths plus the sum of the replacement lengths,
as read off the audit list it returns. The hypotheses state that the
detector capabilities report well-formed in-bounds character offsets. -/
theorem c6_sanitize_length (sk : String) (ner : List NerEnt)
    (rgx : EntityType → List RegexMatch) (text : String) (lvl : PrivacyLevel)
    (pres : Bool) (st : VaultState)
    (hner : ∀ ent ∈ ner, ent.start ≤ ent.stop ∧ ent.stop ≤ text.length)
    (hrgx : ∀ tel : EntityType, ∀ m ∈ rgx tel, m.start ≤ m.stop ∧
      m.stop ≤ text.length) :
    (sanitize_text sk ner rgx text lvl pres st).1.sanitized_text.length +
        sumRemovedLens (sanitize_text sk ner rgx text lvl pres st).1.entities_found =
      text.length +
        sumReplLens (sanitize_text sk ner rgx text lvl pres st).1.entities_found := by
  have hsort := sortByB_pairwise_desc
    (detect_sensitive_entities sk ner rgx lvl st).1
  have hdisj0 : (detect_sensitive_entities sk ner rgx lvl st).1.Pairwise
      fun a b => ¬ Overlap a b :=
    keepNonOverlapping_pairwise _ [] List.Pairwise.nil
  have hdisj : (sortByB descStartLtB
      (detect_sensitive_entities sk ner rgx lvl st).1).Pairwise
      fun a b => ¬ Overlap a b := by
    refine hdisj0.perm (sortByB_perm descStartLtB _).symm ?_
    intro a b hab hov
    exact hab ⟨hov.2, hov.1⟩
  have hbound : ∀ e ∈ sortByB descStartLtB
      (detect_sensitive_entities sk ner rgx lvl st).1,
      e.start ≤ e.stop ∧ e.stop ≤ text.data.length := by
    intro e he
    have hed : e ∈ (detect_sensitive_entities sk ner rgx lvl st).1 :=
      (sortByB_perm descStartLtB _).mem_iff.mp he
    have hec : e ∈ (collectCandidates sk ner rgx lvl st).1 :=
      remove_overlapping_subset hed
    rcases List.mem_append.mp hec with h1 | h1
    · rcases nerPass_span_origin sk _ ner st e h1 with ⟨ent, hent, hs, hp⟩
      rw [hs, hp]
      exact hner ent hent
    · rcases regexPass_span_origin sk _ rgx patternOrder _ e h1 with
        ⟨t2, m, hm, hs, hp⟩
      rw [hs, hp]
      exact hrgx t2 m hm
  exact applyReplacements_length sk pres
    (sortByB descStartLtB (detect_sensitive_entities sk ner rgx lvl st).1)
    text.data hsort hdisj hbound

/-- Witness for C6 at concrete in-bounds capability outputs. -/
theorem c6_witness :
    (∀ ent ∈ cex6Ner, ent.start ≤ ent.stop ∧
      ent.stop ≤ ("ab@c.de hi" : String).length) ∧
    (∀ tel : EntityType, ∀ m ∈ cex6Rgx tel, m.start ≤ m.stop ∧
      m.stop ≤ ("ab@c.de hi" : String).length) ∧
    ((sanitize_text "k" cex6Ner cex6Rgx "ab@c.de hi" .STANDARD true
        { token_map := [], saved_map := [] }).1.sanitized_text.length +
        sumRemovedLens (sanitize_text "k" cex6Ner cex6Rgx "ab@c.de hi" .STANDARD true
          { token_map := [], saved_map := [] }).1.entities_found =
      ("ab@c.de hi" : String).length +
        sumReplLens (sanitize_text "k" cex6Ner cex6Rgx "ab@c.de hi" .STANDARD true
          { token_map := [], saved_map := [] }).1.entities_found) :=
  ⟨by decide, by decide,
   c6_sanitize_length "k" cex6Ner cex6Rgx "ab@c.de hi" .STANDARD true
     { token_map := [], saved_map := [] } (by decide) (by decide)⟩
